import Mathlib

/-!
Verification of the corp_error_agent_server analytics engine.

Shallow embedding of the Python sources:
  * `cea_srv/analysis/management/commands/run_analysis.py` (the analysis run)
  * `cea_srv/analysis/services.py` (the suggestion service)
  * `cea_srv/telemetry/views.py`, `serializers.py`, `models.py` (the API boundary)

Python strings are modelled as `List Char` (`Str`), Python dicts whose
insertion order matters as association lists, numeric rates as `ℚ`.
The sentence-transformer encoder and sklearn's DBSCAN are external
collaborators (out of scope per the design); they enter the model as
opaque function parameters (`encode`, `dbscan`).
-/

namespace CEA

/-- Python `str` modelled as a list of characters. -/
abbrev Str := List Char

/-- `x or ''` on an optional string: Python's falsy coalescing — both `None`
and `""` yield `""`. -/
def sigOrEmpty (s : Option Str) : Str := s.getD []

/-- Python truthiness of an optional string: `None` and `""` are falsy. -/
def strTruthy : Option Str → Bool
  | none => false
  | some s => !s.isEmpty

/-- Python `s.strip()` (whitespace at both ends removed). -/
def pyStrip (s : Str) : Str :=
  ((s.dropWhile Char.isWhitespace).reverse.dropWhile Char.isWhitespace).reverse

/-- Python `s.lower()`. -/
def pyLower (s : Str) : Str := s.map Char.toLower

/-- Python `s.split(sep, 1)` when `sep` occurs in `s`: `some (before, after)`
at the first occurrence of `sep`; `none` when `sep` does not occur
(so `some _ ↔ sep in s`). `sep` is non-empty at every use site. -/
def splitOnce (sep : Str) : Str → Option (Str × Str)
  | [] => none
  | c :: rest =>
    if sep.isPrefixOf (c :: rest) then some ([], (c :: rest).drop sep.length)
    else
      match splitOnce sep rest with
      | some (pre, post) => some (c :: pre, post)
      | none => none

/-- Python dict assignment `d[k] = v` on an insertion-ordered dict:
update in place if the key exists, else append. -/
def dictInsert (d : List (Str × Str)) (k v : Str) : List (Str × Str) :=
  if d.any (fun p => p.1 = k) then
    d.map (fun p => if p.1 = k then (k, v) else p)
  else d ++ [(k, v)]

/-- The `packages` JSON field: Python `None`, a dict, or a list of
specifier strings (non-string list entries are skipped by the source
and not modelled). -/
inductive Packages where
  | null : Packages
  | dict : List (Str × Str) → Packages
  | list : List Str → Packages
deriving DecidableEq, Repr

/-- Python `not packages`: `None`, `{}` and `[]` are falsy. -/
def Packages.falsy : Packages → Bool
  | .null => true
  | .dict d => d.isEmpty
  | .list l => l.isEmpty

/-- One iteration of the list-branch loop of `Command._parse_packages`:
the `'=='`/`'>='`/`'<='`/`'>'`/`'<'` cascade, in source order, with the
bare-name fallback mapping to `"unknown"`. -/
def parsePkgSpec (acc : List (Str × Str)) (pkg_spec : Str) : List (Str × Str) :=
  match splitOnce ['=', '='] pkg_spec with
  | some (name, ver) => dictInsert acc name ver
  | none =>
    match splitOnce ['>', '='] pkg_spec with
    | some (name, ver) => dictInsert acc name ('>' :: '=' :: ver)
    | none =>
      match splitOnce ['<', '='] pkg_spec with
      | some (name, ver) => dictInsert acc name ('<' :: '=' :: ver)
      | none =>
        match splitOnce ['>'] pkg_spec with
        | some (name, ver) => dictInsert acc name ('>' :: ver)
        | none =>
          match splitOnce ['<'] pkg_spec with
          | some (name, ver) => dictInsert acc name ('<' :: ver)
          | none => dictInsert acc pkg_spec ("unknown".data)

/-- `Command._parse_packages` (also `parse_packages` in
`test_package_parsing.py`): dict input returned unchanged, list input
normalised entry by entry, falsy input (and any other type) maps to `{}`. -/
def parse_packages : Packages → List (Str × Str)
  | p =>
    if p.falsy then []
    else
      match p with
      | .null => []
      | .dict d => d
      | .list l => l.foldl parsePkgSpec []

/-! ### Telemetry data model and views (`telemetry/models.py`, `views.py`, `serializers.py`) -/

/-- `telemetry.models.EnvSnapshot` (the auto fields `id` and `captured_at`
are not observable by the analysis engine and are not modelled). -/
structure EnvSnapshot where
  env_hash : Str
  machine_arch : Str
  packages : Packages
  python_ver : Str
  os_info : Str
  env_vars : Option (List (Str × Str))
deriving DecidableEq, Repr

/-- `telemetry.models.Beacon`. Timestamps are modelled as integers. -/
structure Beacon where
  kind : Str
  env_hash : Str
  script_id : Str
  error_sig : Option Str
  trace : Option Str
  ts : Int
deriving DecidableEq, Repr

/-- `EnvView.post`: `get_or_create` keyed on `(env_hash, machine_arch)` with
the validated payload as defaults; returns the `created` flag and the new
table contents. An existing row is returned untouched (first write wins). -/
def EnvView_post (payload : EnvSnapshot) (db : List EnvSnapshot) :
    Bool × List EnvSnapshot :=
  match db.find? (fun e =>
      e.env_hash == payload.env_hash && e.machine_arch == payload.machine_arch) with
  | some _ => (false, db)
  | none => (true, db ++ [payload])

/-- `BeaconIn.validate`: a beacon of kind `error` must carry a truthy
`error_sig` or a truthy `trace`. -/
def beaconValid (b : Beacon) : Bool :=
  !(b.kind == "error".data && !(strTruthy b.error_sig || strTruthy b.trace))

/-- `BeaconView.post`: the serializer's `ValidationError` is caught by the
view's blanket `except Exception` handler, which answers HTTP 500 and
writes nothing; a valid beacon is saved and the view answers 204 when the
matching environment snapshot is still needed, 200 otherwise. -/
def BeaconView_post (payload : Beacon) (envs : List EnvSnapshot)
    (beacons : List Beacon) : Nat × List Beacon :=
  if !beaconValid payload then (500, beacons)
  else
    let beacons' := beacons ++ [payload]
    if envs.all (fun e => !(e.env_hash == payload.env_hash)) then (204, beacons')
    else (200, beacons')

/-! ### Configuration statistics (`run_analysis.py`) -/

/-- The nested `defaultdict(lambda: defaultdict(int))` accumulator,
as an insertion-ordered two-level association list. -/
abbrev ConfigStats := List (Str × List (Str × Nat))

/-- `config_stats[k][v] += 1` on the inner dict. -/
def bumpInner (l : List (Str × Nat)) (v : Str) : List (Str × Nat) :=
  if l.any (fun p => p.1 == v) then
    l.map (fun p => if p.1 == v then (p.1, p.2 + 1) else p)
  else l ++ [(v, 1)]

/-- `config_stats[k][v] += 1`: default-insert the outer key, then bump the
inner count. -/
def bump (stats : ConfigStats) (k v : Str) : ConfigStats :=
  if stats.any (fun p => p.1 == k) then
    stats.map (fun p => if p.1 == k then (p.1, bumpInner p.2 v) else p)
  else stats ++ [(k, bumpInner [] v)]

/-- The sensitive-variable denylist of `run_analysis.py`. -/
def denylist : List Str :=
  ["password".data, "secret".data, "key".data, "token".data, "auth".data]

/-- Dotted key for a package dimension. -/
def pkgKey (name : Str) : Str := "packages.".data ++ name

/-- Dotted key for an environment-variable dimension. -/
def envVarKey (name : Str) : Str := "env_vars.".data ++ name

/-- The body of the environment-variable loop: skip a value longer than
200 characters, then skip a denylisted (lowercased) name, otherwise record
one hit. -/
def envVarStep (acc : ConfigStats) (p : Str × Str) : ConfigStats :=
  if p.2.length > 200 then acc
  else if denylist.contains (pyLower p.1) then acc
  else bump acc (envVarKey p.1) p.2

/-- One snapshot's contribution to a configuration accumulator — the loop
body shared verbatim between `_calculate_global_config_stats` and
`_analyze_cluster_config_patterns`: one hit per dimension, packages
normalised by `_parse_packages`, environment variables skipped when the
value exceeds 200 characters or the lowercased name is denylisted. -/
def envHits (stats : ConfigStats) (env : EnvSnapshot) : ConfigStats :=
  let s1 := bump stats "python_ver".data env.python_ver
  let s2 := bump s1 "machine_arch".data env.machine_arch
  let s3 := bump s2 "os_info".data env.os_info
  let s4 := (parse_packages env.packages).foldl
    (fun acc p => bump acc (pkgKey p.1) p.2) s3
  match env.env_vars with
  | none => s4
  | some vars => vars.foldl envVarStep s4

/-- Per-run baseline rates, outer key → value → rate. -/
abbrev GlobalRates := List (Str × List (Str × ℚ))

/-- `Command._calculate_global_config_stats`: accumulate hits over every
stored snapshot, then divide each count by the total snapshot count;
an empty table yields `{}`. -/
def _calculate_global_config_stats (envDB : List EnvSnapshot) : GlobalRates :=
  let total_envs := envDB.length
  if total_envs = 0 then []
  else
    let config_stats := envDB.foldl envHits []
    config_stats.map (fun p =>
      (p.1, p.2.map (fun q => (q.1, (q.2 : ℚ) / (total_envs : ℚ)))))

/-- `global_stats.get(config_key, {}).get(value, 0.01)`. -/
def lookupRate (gs : GlobalRates) (k v : Str) : ℚ :=
  match gs.find? (fun p => p.1 == k) with
  | none => 1/100
  | some kv =>
    match kv.2.find? (fun q => q.1 == v) with
    | none => 1/100
    | some vr => vr.2

/-- `analysis.models.ConfigPattern`; the owning cluster is referenced by
its unique `cluster_hash`. -/
structure ConfigPattern where
  cluster_hash : Str
  config_key : Str
  config_value : Str
  occurrence_rate : ℚ
  global_rate : ℚ
  significance_score : ℚ
deriving DecidableEq, Repr

/-- One deduplicated working-set record `{beacon, text, env}`. -/
structure WorkRec where
  beacon : Beacon
  text : Str
  env : EnvSnapshot
deriving DecidableEq, Repr

/-- `Command._analyze_cluster_config_patterns`: accumulate the cluster's
configuration hits, score every observed (key, value) pair against the
baseline, and keep a pattern exactly when `significance_score > 1.5` and
`occurrence_rate > 0.65`. -/
def _analyze_cluster_config_patterns (cluster_data : List WorkRec)
    (global_stats : GlobalRates) (cluster_hash : Str) : List ConfigPattern :=
  let cluster_size := cluster_data.length
  let cluster_configs := cluster_data.foldl (fun acc d => envHits acc d.env) []
  cluster_configs.flatMap (fun kv =>
    kv.2.filterMap (fun vc =>
      let occurrence_rate : ℚ := (vc.2 : ℚ) / (cluster_size : ℚ)
      let global_rate := lookupRate global_stats kv.1 vc.1
      let significance_score := occurrence_rate / global_rate
      if significance_score > 3/2 ∧ occurrence_rate > 13/20 then
        some ⟨cluster_hash, kv.1, vc.1, occurrence_rate, global_rate,
              significance_score⟩
      else none))

/-! ### Ingestion & deduplication (`Command.handle`, lines 83–124) -/

/-- The deduplication key `f"{beacon.error_sig or ''}:{beacon.env_hash}"`. -/
def errorKey (b : Beacon) : Str :=
  sigOrEmpty b.error_sig ++ ':' :: b.env_hash

/-- `beacon.error_sig or "unknown"`: `None` and `""` are falsy. -/
def sigOrUnknown (s : Option Str) : Str :=
  match s with
  | none => "unknown".data
  | some t => if t.isEmpty then "unknown".data else t

/-- `cluster_data[0]['beacon'].error_sig or "Unknown Error"`. -/
def sigOrUnknownError (s : Option Str) : Str :=
  match s with
  | none => "Unknown Error".data
  | some t => if t.isEmpty then "Unknown Error".data else t

/-- `EnvSnapshot.objects.get(env_hash=...)`: `some none` when no row matches
(`DoesNotExist`, caught by the loop), `some (some e)` for a unique match, and
`none` when several rows share the hash (`MultipleObjectsReturned`, which the
loop does not catch — the command dies before touching the Cluster Store). -/
def getEnv (envDB : List EnvSnapshot) (h : Str) : Option (Option EnvSnapshot) :=
  match envDB.filter (fun e => e.env_hash == h) with
  | [] => some none
  | [e] => some (some e)
  | _ => none

/-- The transient outputs of the deduplication loop. -/
structure IngestOut where
  error_texts : List Str
  beacon_env_data : List WorkRec
  duplicates_filtered : Nat
deriving DecidableEq, Repr

/-- The deduplication loop of `Command.handle`: skip a beacon whose key was
seen, otherwise append its stripped text to `error_texts` and, when a unique
environment row matches, the `{beacon, text, env}` record to
`beacon_env_data`; `none` models the uncaught `MultipleObjectsReturned`. -/
def ingestLoop (envDB : List EnvSnapshot) :
    List Beacon → List Str → IngestOut → Option IngestOut
  | [], _, acc => some acc
  | b :: rest, seen, acc =>
    if seen.contains (errorKey b) then
      ingestLoop envDB rest seen
        { acc with duplicates_filtered := acc.duplicates_filtered + 1 }
    else
      let seen' := errorKey b :: seen
      let text := sigOrUnknown b.error_sig
      if (pyStrip text).isEmpty then ingestLoop envDB rest seen' acc
      else
        let stripped := pyStrip text
        match getEnv envDB b.env_hash with
        | none => none
        | some none =>
          ingestLoop envDB rest seen'
            { acc with error_texts := acc.error_texts ++ [stripped] }
        | some (some env) =>
          ingestLoop envDB rest seen'
            { acc with
              error_texts := acc.error_texts ++ [stripped],
              beacon_env_data := acc.beacon_env_data ++ [⟨b, stripped, env⟩] }

/-- The seen-set filter of the deduplication loop in isolation: the
subsequence of beacons whose key had not been seen before them. -/
def dedupFirst (seen : List Str) : List Beacon → List Beacon
  | [] => []
  | b :: rest =>
    if seen.contains (errorKey b) then dedupFirst seen rest
    else b :: dedupFirst (errorKey b :: seen) rest

/-! ### The analysis run (`Command.handle`, lines 126–205) -/

/-- `analysis.models.ErrorCluster`; the pickled embedding bytes hold an
opaque encoder vector of type `E`. -/
structure ErrorCluster (E : Type) where
  cluster_hash : Str
  error_signature : Str
  error_count : Nat
  first_seen : Int
  last_seen : Int
  embedding : E
deriving DecidableEq, Repr

/-- `analysis.models.ErrorAnalysis` (the wall-clock duration and the
auto-now date are real time and not modelled). -/
structure AnalysisRec where
  total_errors_analyzed : Nat
  clusters_found : Nat
  patterns_found : Nat
deriving DecidableEq, Repr

/-- The Cluster Store plus the audit table. -/
structure Store (E : Type) where
  clusters : List (ErrorCluster E)
  patterns : List ConfigPattern
  analyses : List AnalysisRec
deriving DecidableEq, Repr

/-- A single `objects.create` issued inside the run's `try` block. -/
inductive CreateOp (E : Type) where
  | cluster : ErrorCluster E → CreateOp E
  | pattern : ConfigPattern → CreateOp E
deriving DecidableEq, Repr

/-- Commit a list of creates to the store in order. -/
def applyOps {E : Type} (s : Store E) (ops : List (CreateOp E)) : Store E :=
  ops.foldl (fun st op =>
    match op with
    | .cluster c => { st with clusters := st.clusters ++ [c] }
    | .pattern p => { st with patterns := st.patterns ++ [p] }) s

/-- `[beacon_env_data[i] for i, label in enumerate(cluster_labels) if label
== cluster_id]`, with `enumerate` modelled by an index counter; `none` is
the `IndexError` raised when the label list outruns `beacon_env_data`. -/
def clusterDataAux (bed : List WorkRec) (cid : Int) :
    Nat → List Int → Option (List WorkRec)
  | _, [] => some []
  | i, l :: ls =>
    if l == cid then
      match bed[i]?, clusterDataAux bed cid (i + 1) ls with
      | some r, some rest => some (r :: rest)
      | _, _ => none
    else clusterDataAux bed cid (i + 1) ls

/-- The member records of one cluster id. -/
def clusterData (bed : List WorkRec) (labels : List Int) (cid : Int) :
    Option (List WorkRec) :=
  clusterDataAux bed cid 0 labels

/-- Python's `set(cluster_labels)` iteration, modelled in first-occurrence
order (the source set's order is unspecified; per-cluster output does not
depend on it). -/
def firstDedup (l : List Int) : List Int :=
  l.foldl (fun acc x => if acc.contains x then acc else acc ++ [x]) []

/-- The creates issued for one cluster id inside the `try` block: skip the
noise label and clusters of fewer than two members, hash the representative
signature (`hashSig` is the opaque `sha256(...)[:32]`), store the
representative's own embedding found by `error_texts.index`, then the
cluster row followed by its significant patterns. `none` is an exception
inside the `try` block. -/
def clusterOps {E : Type} (encode : Str → E) (hashSig : Str → Str)
    (error_texts : List Str) (bed : List WorkRec) (labels : List Int)
    (gs : GlobalRates) (cid : Int) : Option (List (CreateOp E)) :=
  if cid == (-1 : Int) then some []
  else
    match clusterData bed labels cid with
    | none => none
    | some cd =>
      if cd.length < 2 then some []
      else
        match cd with
        | [] => some []
        | d0 :: rest =>
          let representative_sig := sigOrUnknownError d0.beacon.error_sig
          let cluster_hash := hashSig representative_sig
          match error_texts.indexOf? d0.text with
          | none => none
          | some idx =>
            match (error_texts.map encode)[idx]? with
            | none => none
            | some emb =>
              let first_seen :=
                rest.foldl (fun m d => min m d.beacon.ts) d0.beacon.ts
              let last_seen :=
                rest.foldl (fun m d => max m d.beacon.ts) d0.beacon.ts
              let cluster_obj : ErrorCluster E :=
                ⟨cluster_hash, representative_sig.take 500, cd.length,
                 first_seen, last_seen, emb⟩
              let pats :=
                _analyze_cluster_config_patterns cd gs cluster_hash
              some (.cluster cluster_obj :: pats.map .pattern)

/-- Fold the per-cluster creates over the distinct labels; an exception at
cluster *k* leaves the creates of the earlier clusters committed — the
returned flag records that the `try` block raised. -/
def opsUpTo {E : Type} (encode : Str → E) (hashSig : Str → Str)
    (error_texts : List Str) (bed : List WorkRec) (labels : List Int)
    (gs : GlobalRates) : List Int → List (CreateOp E) × Bool
  | [] => ([], false)
  | cid :: restIds =>
    match clusterOps encode hashSig error_texts bed labels gs cid with
    | none => ([], true)
    | some ops =>
      let r := opsUpTo encode hashSig error_texts bed labels gs restIds
      (ops ++ r.1, r.2)

/-- Count the cluster creates in a list of ops (`clusters_created`). -/
def countClusters {E : Type} (ops : List (CreateOp E)) : Nat :=
  (ops.filter (fun op => match op with | .cluster _ => true | _ => false)).length

/-- Count the pattern creates in a list of ops (`patterns_created`). -/
def countPatterns {E : Type} (ops : List (CreateOp E)) : Nat :=
  (ops.filter (fun op => match op with | .pattern _ => true | _ => false)).length

/-- `Command.handle`. `encode` is the opaque sentence-transformer, `dbscan`
the opaque sklearn clustering (one label per embedding), `hashSig` the
opaque signature hash. `faultAt = some n` injects an unexpected fault inside
the `try` block after `n` creates have been issued. The old cluster and
pattern rows are deleted *before* the `try` block; an aborted run commits
whatever was created up to the fault and writes no `ErrorAnalysis` row. -/
def runAnalysis {E : Type} (encode : Str → E) (dbscan : List E → List Int)
    (hashSig : Str → Str) (faultAt : Option Nat) (beacons : List Beacon)
    (envDB : List EnvSnapshot) (store : Store E) : Store E :=
  let error_beacons := beacons.filter (fun b => b.kind == "error".data)
  if error_beacons.isEmpty then store
  else
    match ingestLoop envDB error_beacons [] ⟨[], [], 0⟩ with
    | none => store
    | some ing =>
      if ing.beacon_env_data.isEmpty then store
      else
        let store1 : Store E := { store with clusters := [], patterns := [] }
        let embeddings := ing.error_texts.map encode
        let labels := dbscan embeddings
        let gs := _calculate_global_config_stats envDB
        let r := opsUpTo encode hashSig ing.error_texts ing.beacon_env_data
          labels gs (firstDedup labels)
        match faultAt with
        | some n => applyOps store1 (r.1.take n)
        | none =>
          if r.2 then applyOps store1 r.1
          else
            let store2 := applyOps store1 r.1
            { store2 with analyses := store2.analyses ++
                [⟨ing.beacon_env_data.length, countClusters r.1,
                  countPatterns r.1⟩] }

/-! ### Suggestion service (`analysis/services.py`) -/

/-- An `ErrorCluster` row together with its related `config_patterns`, as
read by `ConfigSuggestionService`. -/
structure ServiceCluster where
  error_count : Nat
  first_seen : Int
  last_seen : Int
  error_signature : Str
  config_patterns : List ConfigPattern
deriving DecidableEq, Repr

/-- One entry of the returned `suggestions` list (the rendered
`suggestion` string of `_format_config_suggestion` is a pure function of
these fields and is not duplicated here). -/
structure Suggestion where
  confidence_percentage : Int
  config_key : Str
  config_value : Str
  significance_score : ℚ
deriving DecidableEq, Repr

/-- The successful return value of `find_config_suggestion`. -/
structure SuggestionResult where
  similarity : ℚ
  total_similar_errors : Nat
  suggestions : List Suggestion
  first_seen : Int
  last_seen : Int
  error_signature : Str
deriving DecidableEq, Repr

/-- The best-match scan: fold of `if similarity > best_similarity and
similarity >= threshold` over the clusters, starting from
`(None, 0)`. Each cluster carries the cosine similarity that numpy computed
against the query embedding (the float arithmetic is opaque; the scores are
inputs to the scan). -/
def selectBest (threshold : ℚ) (clusters : List (ServiceCluster × ℚ)) :
    Option ServiceCluster × ℚ :=
  clusters.foldl (fun best c =>
    if c.2 > best.2 ∧ c.2 ≥ threshold then (some c.1, c.2) else best)
    (none, 0)

/-- Descending order on significance scores. -/
def sigGE (a b : ConfigPattern) : Prop :=
  b.significance_score ≤ a.significance_score

instance : DecidableRel sigGE := fun a b =>
  inferInstanceAs (Decidable (b.significance_score ≤ a.significance_score))

instance : IsTotal ConfigPattern sigGE :=
  ⟨fun a b => le_total b.significance_score a.significance_score⟩

instance : IsTrans ConfigPattern sigGE :=
  ⟨fun _ _ _ hab hbc => le_trans hbc hab⟩

/-- `order_by('-significance_score')`: stable sort, highest score first. -/
def sortBySignificanceDesc (ps : List ConfigPattern) : List ConfigPattern :=
  ps.insertionSort sigGE

/-- `int(pattern.occurrence_rate * 100)` followed by the suggestion record
construction (rates are non-negative, so Python's `int` truncation is
`floor`). -/
def mkSuggestion (p : ConfigPattern) : Suggestion :=
  ⟨⌊p.occurrence_rate * 100⌋, p.config_key, p.config_value,
   p.significance_score⟩

/-- `ConfigSuggestionService.find_config_suggestion`. `modelOk` is the
singleton-model state (`False` for the `"ERROR"` sentinel), `encodeOk`
whether `model.encode` succeeded; each cluster is paired with its cosine
similarity to the query. Every failure path answers `none` — the service
never raises. -/
def find_config_suggestion (modelOk encodeOk : Bool)
    (error_sig error_trace : Option Str) (threshold : ℚ)
    (max_suggestions : Nat) (clusters : List (ServiceCluster × ℚ)) :
    Option SuggestionResult :=
  if !strTruthy error_sig && !strTruthy error_trace then none
  else
    let error_text := sigOrUnknown error_sig
    if (pyStrip error_text).isEmpty then none
    else if !modelOk then none
    else if clusters.isEmpty then none
    else if !encodeOk then none
    else
      match selectBest threshold clusters with
      | (none, _) => none
      | (some best_match, best_similarity) =>
        let significant_patterns :=
          (sortBySignificanceDesc best_match.config_patterns).take
            max_suggestions
        if significant_patterns.isEmpty then none
        else
          some ⟨best_similarity, best_match.error_count,
                significant_patterns.map mkSuggestion,
                best_match.first_seen, best_match.last_seen,
                best_match.error_signature⟩

/-! ## Theorems -/

/-- A client-error HTTP status (4xx). -/
def isClientError (status : Nat) : Prop := 400 ≤ status ∧ status < 500

/-- A payload of kind `error` with neither signature nor trace. -/
def badBeacon : Beacon :=
  ⟨"error".data, "abc123".data, "scr1".data, none, none, 0⟩

/-- C3 counterexample: submitting an error beacon with neither signature
nor trace is answered with HTTP 500 — a *server*-error status, not a client
error — because the view's blanket `except Exception` handler swallows the
serializer's `ValidationError`; no `Beacon` row is written. -/
theorem beacon_post_answers_500_not_client_error :
    BeaconView_post badBeacon [] [] = (500, []) ∧ ¬ isClientError 500 := by
  constructor
  · rfl
  · intro h
    exact absurd h.2 (by decide)

/-- C3 (amended): submit beacon rejects — with an error response, which the
blanket exception handler emits as HTTP 500 rather than a 4xx — and writes
no `Beacon` record, whenever the payload's kind is `error` and neither an
error signature nor a trace is present. -/
theorem beacon_post_rejects_error_without_context :
    ∀ (p : Beacon) (envs : List EnvSnapshot) (beacons : List Beacon),
      p.kind = "error".data → strTruthy p.error_sig = false →
      strTruthy p.trace = false →
      BeaconView_post p envs beacons = (500, beacons) := by
  intro p envs beacons hk hs ht
  simp [BeaconView_post, beaconValid, hk, hs, ht]

/-- C3 witness: the amended theorem applied to the concrete bad payload. -/
theorem beacon_post_rejects_witness :
    BeaconView_post badBeacon [] [] = (500, []) :=
  beacon_post_rejects_error_without_context badBeacon [] []
    (by decide) (by decide) (by decide)

/-- Identity predicate of `EnvSnapshot.objects.get_or_create` in
`EnvView.post`. -/
def envMatches (p : EnvSnapshot) (e : EnvSnapshot) : Bool :=
  e.env_hash == p.env_hash && e.machine_arch == p.machine_arch

/-- C8: submit environment stores a new snapshot exactly when no row with
the same `(env_hash, machine_arch)` exists, reporting the `created` flag; a
stored run appends the payload; a non-stored run changes nothing; and a
repeated submission with the same identity is a no-op on the table that
reports `stored = false` (first write wins). -/
theorem env_post_first_write_wins :
    ∀ (p p' : EnvSnapshot) (db : List EnvSnapshot),
      ((EnvView_post p db).1 = true ↔
        ∀ e ∈ db, ¬(e.env_hash = p.env_hash ∧ e.machine_arch = p.machine_arch)) ∧
      ((EnvView_post p db).1 = true → (EnvView_post p db).2 = db ++ [p]) ∧
      ((EnvView_post p db).1 = false → (EnvView_post p db).2 = db) ∧
      (p'.env_hash = p.env_hash → p'.machine_arch = p.machine_arch →
        EnvView_post p' (EnvView_post p db).2 = (false, (EnvView_post p db).2)) := by
  intro p p' db
  refine ⟨?_, ?_, ?_, ?_⟩
  · unfold EnvView_post
    cases hf : db.find? (fun e =>
        e.env_hash == p.env_hash && e.machine_arch == p.machine_arch) with
    | none =>
      simp only [List.find?_eq_none] at hf
      simp only [true_iff]
      intro e he hid
      exact hf e he (by simp [hid.1, hid.2])
    | some e =>
      simp only [iff_false_intro, false_iff]
      constructor
      · intro h; cases h
      · intro hall
        have hmem := List.mem_of_find?_eq_some hf
        have hpred := List.find?_some hf
        simp only [Bool.and_eq_true, beq_iff_eq] at hpred
        exact absurd ⟨hpred.1, hpred.2⟩ (hall e hmem)
  · unfold EnvView_post
    cases hf : db.find? (fun e =>
        e.env_hash == p.env_hash && e.machine_arch == p.machine_arch) with
    | none => intro _; rfl
    | some e => intro h; cases h
  · unfold EnvView_post
    cases hf : db.find? (fun e =>
        e.env_hash == p.env_hash && e.machine_arch == p.machine_arch) with
    | none => intro h; cases h
    | some e => intro _; rfl
  · intro h1 h2
    unfold EnvView_post
    have hpred : (fun e =>
        e.env_hash == p'.env_hash && e.machine_arch == p'.machine_arch) =
        (fun e : EnvSnapshot =>
        e.env_hash == p.env_hash && e.machine_arch == p.machine_arch) := by
      funext e; rw [h1, h2]
    cases hf : db.find? (fun e =>
        e.env_hash == p.env_hash && e.machine_arch == p.machine_arch) with
    | some e => simp [hf, hpred]
    | none =>
      simp only [hf]
      rw [hpred, List.find?_append, hf]
      simp [h1, h2]

/-- C8 witness: a fresh snapshot is stored, resubmitting the same identity
is a no-op that reports `stored = false`. -/
theorem env_post_first_write_wins_witness :
    (EnvView_post ⟨"h1".data, "x86".data, .null, "3.11".data, "linux".data,
        none⟩ []).1 = true ∧
    EnvView_post ⟨"h1".data, "x86".data, .null, "3.12".data, "mac".data,
        none⟩
      (EnvView_post ⟨"h1".data, "x86".data, .null, "3.11".data,
        "linux".data, none⟩ []).2 =
      (false, (EnvView_post ⟨"h1".data, "x86".data, .null, "3.11".data,
        "linux".data, none⟩ []).2) := by
  constructor
  · exact ((env_post_first_write_wins ⟨"h1".data, "x86".data, .null,
      "3.11".data, "linux".data, none⟩ ⟨"h1".data, "x86".data, .null,
      "3.12".data, "mac".data, none⟩ []).1).mpr (by intro e he; cases he)
  · exact (env_post_first_write_wins ⟨"h1".data, "x86".data, .null,
      "3.11".data, "linux".data, none⟩ ⟨"h1".data, "x86".data, .null,
      "3.12".data, "mac".data, none⟩ []).2.2.2 rfl rfl

/-- The configuration accumulator of one cluster. -/
def clusterConfigs (cluster_data : List WorkRec) : ConfigStats :=
  cluster_data.foldl (fun acc d => envHits acc d.env) []

/-- C4: a `ConfigPattern` is persisted for a cluster iff the (key, value)
pair was observed among the cluster's members with a count whose
significance score is strictly above 1.5 and whose occurrence rate is
strictly above 0.65; boundary values are excluded. -/
theorem config_pattern_retention_thresholds :
    ∀ (cd : List WorkRec) (gs : GlobalRates) (ch : Str),
      (∀ p ∈ _analyze_cluster_config_patterns cd gs ch,
        p.significance_score > 3/2 ∧ p.occurrence_rate > 13/20) ∧
      (∀ kv ∈ clusterConfigs cd, ∀ vc ∈ kv.2,
        ((vc.2 : ℚ) / (cd.length : ℚ)) / lookupRate gs kv.1 vc.1 > 3/2 →
        (vc.2 : ℚ) / (cd.length : ℚ) > 13/20 →
        (⟨ch, kv.1, vc.1, (vc.2 : ℚ) / (cd.length : ℚ),
          lookupRate gs kv.1 vc.1,
          ((vc.2 : ℚ) / (cd.length : ℚ)) / lookupRate gs kv.1 vc.1⟩ :
          ConfigPattern) ∈ _analyze_cluster_config_patterns cd gs ch) := by
  intro cd gs ch
  constructor
  · intro p hp
    unfold _analyze_cluster_config_patterns at hp
    rw [List.mem_flatMap] at hp
    obtain ⟨kv, _, hkv⟩ := hp
    rw [List.mem_filterMap] at hkv
    obtain ⟨vc, _, hvc⟩ := hkv
    by_cases hcond : ((vc.2 : ℚ) / (cd.length : ℚ)) /
        lookupRate gs kv.1 vc.1 > 3/2 ∧ (vc.2 : ℚ) / (cd.length : ℚ) > 13/20
    · rw [if_pos hcond] at hvc
      cases hvc
      exact ⟨hcond.1, hcond.2⟩
    · rw [if_neg hcond] at hvc
      cases hvc
  · intro kv hkv vc hvc h1 h2
    unfold _analyze_cluster_config_patterns
    rw [List.mem_flatMap]
    refine ⟨kv, hkv, ?_⟩
    rw [List.mem_filterMap]
    refine ⟨vc, hvc, ?_⟩
    rw [if_pos ⟨h1, h2⟩]

/-- A two-member example cluster sharing `python_ver = "3.11"`. -/
def exampleClusterData : List WorkRec :=
  [⟨⟨"error".data, "h1".data, "s".data, some "boom".data, none, 0⟩,
    "boom".data,
    ⟨"h1".data, "x86".data, .null, "3.11".data, "linux".data, none⟩⟩,
   ⟨⟨"error".data, "h2".data, "s".data, some "boom".data, none, 1⟩,
    "boom".data,
    ⟨"h2".data, "x86".data, .null, "3.11".data, "linux".data, none⟩⟩]

/-- C4 witness: the two-member cluster against an empty baseline (global
rate defaults to 0.01) stores the `python_ver` pattern, whose significance
100 and rate 1 clear both strict thresholds. -/
theorem config_pattern_retention_witness :
    (⟨"ch".data, "python_ver".data, "3.11".data, 1, 1/100, 100⟩ :
        ConfigPattern) ∈
      _analyze_cluster_config_patterns exampleClusterData [] "ch".data := by
  have h := (config_pattern_retention_thresholds
    exampleClusterData [] "ch".data).2 ("python_ver".data, [("3.11".data, 2)])
    (by decide) ("3.11".data, 2) (by decide)
    (by norm_num [lookupRate, exampleClusterData])
    (by norm_num [exampleClusterData])
  have he : (⟨"ch".data, "python_ver".data, "3.11".data, 1, 1/100, 100⟩ :
      ConfigPattern) =
      ⟨"ch".data, ("python_ver".data, [("3.11".data, 2)]).1,
       ("3.11".data, 2).1,
       ((("3.11".data, 2).2 : ℚ) / (exampleClusterData.length : ℚ)),
       lookupRate [] ("python_ver".data, [("3.11".data, 2)]).1
         ("3.11".data, 2).1,
       ((("3.11".data, 2).2 : ℚ) / (exampleClusterData.length : ℚ)) /
         lookupRate [] ("python_ver".data, [("3.11".data, 2)]).1
           ("3.11".data, 2).1⟩ := by
    norm_num [lookupRate, exampleClusterData]
  rw [he]
  exact h

/-- Fold preservation of an invariant. -/
theorem foldl_preserve {α β : Type _} (P : β → Prop) (f : β → α → β)
    (hf : ∀ b a, P b → P (f b a)) :
    ∀ (l : List α) (b : β), P b → P (l.foldl f b)
  | [], _, hb => hb
  | a :: l, b, hb => foldl_preserve P f hf l (f b a) (hf b a hb)

/-- Every count in a configuration accumulator is positive. -/
def PosStats (stats : ConfigStats) : Prop :=
  ∀ kv ∈ stats, ∀ vc ∈ kv.2, 0 < vc.2

theorem bumpInner_pos {l : List (Str × Nat)} {v : Str}
    (hl : ∀ q ∈ l, 0 < q.2) : ∀ q ∈ bumpInner l v, 0 < q.2 := by
  intro q hq
  unfold bumpInner at hq
  by_cases hc : l.any (fun p => p.1 == v)
  · rw [if_pos hc] at hq
    rw [List.mem_map] at hq
    obtain ⟨p, hp, hpe⟩ := hq
    by_cases hpv : p.1 == v
    · rw [if_pos hpv] at hpe
      cases hpe
      exact Nat.succ_pos _
    · rw [if_neg hpv] at hpe
      cases hpe
      exact hl _ hp
  · rw [if_neg hc] at hq
    rcases List.mem_append.mp hq with h | h
    · exact hl q h
    · have he2 := List.mem_singleton.mp h
      subst he2
      exact Nat.one_pos

theorem bump_pos {stats : ConfigStats} {k v : Str} (hs : PosStats stats) :
    PosStats (bump stats k v) := by
  intro kv hkv vc hvc
  unfold bump at hkv
  by_cases hc : stats.any (fun p => p.1 == k)
  · rw [if_pos hc] at hkv
    rw [List.mem_map] at hkv
    obtain ⟨p, hp, hpe⟩ := hkv
    by_cases hpk : p.1 == k
    · rw [if_pos hpk] at hpe
      cases hpe
      exact bumpInner_pos (hs p hp) vc hvc
    · rw [if_neg hpk] at hpe
      cases hpe
      exact hs _ hp _ hvc
  · rw [if_neg hc] at hkv
    rcases List.mem_append.mp hkv with h | h
    · exact hs kv h vc hvc
    · have he2 := List.mem_singleton.mp h
      subst he2
      exact bumpInner_pos (fun q hq => absurd hq (List.not_mem_nil q)) vc hvc

theorem envHits_pos {stats : ConfigStats} (e : EnvSnapshot)
    (hs : PosStats stats) : PosStats (envHits stats e) := by
  unfold envHits
  have h3 : PosStats (bump (bump (bump stats "python_ver".data e.python_ver)
      "machine_arch".data e.machine_arch) "os_info".data e.os_info) :=
    bump_pos (bump_pos (bump_pos hs))
  have h4 : PosStats ((parse_packages e.packages).foldl
      (fun acc p => bump acc (pkgKey p.1) p.2) _) :=
    foldl_preserve PosStats _ (fun b a hb => bump_pos hb) _ _ h3
  cases e.env_vars with
  | none => exact h4
  | some vars =>
    refine foldl_preserve PosStats _ (fun b a hb => ?_) _ _ h4
    unfold envVarStep
    split
    · exact hb
    · split
      · exact hb
      · exact bump_pos hb

theorem globalAccum_pos (envDB : List EnvSnapshot) :
    PosStats (envDB.foldl envHits []) :=
  foldl_preserve PosStats envHits (fun b a hb => envHits_pos a hb) envDB []
    (by intro kv h; exact absurd h (List.not_mem_nil kv))

/-- Every rate stored in the computed baseline is strictly positive. -/
theorem calcGlobal_rates_pos (envDB : List EnvSnapshot) :
    ∀ kv ∈ _calculate_global_config_stats envDB, ∀ vr ∈ kv.2, 0 < vr.2 := by
  intro kv hkv vr hvr
  unfold _calculate_global_config_stats at hkv
  by_cases h0 : envDB.length = 0
  · rw [if_pos h0] at hkv
    cases hkv
  · rw [if_neg h0] at hkv
    rw [List.mem_map] at hkv
    obtain ⟨p, hp, hpe⟩ := hkv
    subst hpe
    simp only [List.mem_map] at hvr
    obtain ⟨q, hq, hqe⟩ := hvr
    subst hqe
    have hqpos : 0 < q.2 := globalAccum_pos envDB p hp q hq
    have : (0 : ℚ) < (q.2 : ℚ) := by exact_mod_cast hqpos
    exact div_pos this (by exact_mod_cast Nat.pos_of_ne_zero h0)

/-- The baseline lookup is always strictly positive. -/
theorem lookupRate_pos (envDB : List EnvSnapshot) (k v : Str) :
    0 < lookupRate (_calculate_global_config_stats envDB) k v := by
  unfold lookupRate
  split
  · norm_num
  · rename_i kv hf
    split
    · norm_num
    · rename_i vr hg
      exact calcGlobal_rates_pos envDB kv (List.mem_of_find?_eq_some hf)
        vr (List.mem_of_find?_eq_some hg)

/-- C6: `global_rate` is the baseline value when the (key, value) pair is
present and 0.01 when absent, is never 0, and every persisted pattern's
significance score equals `occurrence_rate / global_rate` and is ≥ 0. -/
theorem global_rate_floor_and_significance :
    ∀ (envDB : List EnvSnapshot) (k v : Str) (cd : List WorkRec) (ch : Str),
      (0 < lookupRate (_calculate_global_config_stats envDB) k v) ∧
      (((_calculate_global_config_stats envDB).find? (fun p => p.1 == k)).bind
          (fun kv => kv.2.find? (fun q => q.1 == v)) = none →
        lookupRate (_calculate_global_config_stats envDB) k v = 1/100) ∧
      (∀ vr, ((_calculate_global_config_stats envDB).find?
            (fun p => p.1 == k)).bind
          (fun kv => kv.2.find? (fun q => q.1 == v)) = some vr →
        lookupRate (_calculate_global_config_stats envDB) k v = vr.2) ∧
      (∀ p ∈ _analyze_cluster_config_patterns cd
          (_calculate_global_config_stats envDB) ch,
        p.global_rate ≠ 0 ∧
        p.significance_score = p.occurrence_rate / p.global_rate ∧
        0 ≤ p.significance_score) := by
  intro envDB k v cd ch
  refine ⟨lookupRate_pos envDB k v, ?_, ?_, ?_⟩
  · intro hnone
    unfold lookupRate
    split
    · rfl
    · rename_i kv hf
      rw [hf, Option.some_bind] at hnone
      rw [hnone]
  · intro vr hsome
    unfold lookupRate
    split
    · rename_i hf
      rw [hf, Option.none_bind] at hsome
      cases hsome
    · rename_i kv hf
      rw [hf, Option.some_bind] at hsome
      rw [hsome]
  · intro p hp
    unfold _analyze_cluster_config_patterns at hp
    rw [List.mem_flatMap] at hp
    obtain ⟨kv, _, hkv⟩ := hp
    rw [List.mem_filterMap] at hkv
    obtain ⟨vc, _, hvc⟩ := hkv
    by_cases hcond : ((vc.2 : ℚ) / (cd.length : ℚ)) /
        lookupRate (_calculate_global_config_stats envDB) kv.1 vc.1 > 3/2 ∧
        (vc.2 : ℚ) / (cd.length : ℚ) > 13/20
    · rw [if_pos hcond] at hvc
      cases hvc
      have hg := lookupRate_pos envDB kv.1 vc.1
      refine ⟨ne_of_gt hg, rfl, ?_⟩
      exact div_nonneg
        (div_nonneg (Nat.cast_nonneg _) (Nat.cast_nonneg _)) (le_of_lt hg)
    · rw [if_neg hcond] at hvc
      cases hvc

/-- C6 witness: positivity and the 0.01 default evaluated on the
two-member example cluster with an empty snapshot table. -/
theorem global_rate_floor_witness :
    0 < lookupRate (_calculate_global_config_stats []) "python_ver".data
      "3.11".data ∧
    lookupRate (_calculate_global_config_stats []) "python_ver".data
      "3.11".data = 1/100 :=
  ⟨(global_rate_floor_and_significance [] "python_ver".data "3.11".data
      exampleClusterData "ch".data).1,
   (global_rate_floor_and_significance [] "python_ver".data "3.11".data
      exampleClusterData "ch".data).2.1 rfl⟩

/-! ### Lemmas about `splitOnce` (Python `in` + `split(sep, 1)`) -/

/-- A string free of the three operator characters. -/
def opFree (s : Str) : Prop := ∀ c ∈ s, c ≠ '=' ∧ c ≠ '>' ∧ c ≠ '<'

theorem isPrefixOf_cons_ne {x c : Char} (sep' t : Str) (h : c ≠ x) :
    (x :: sep').isPrefixOf (c :: t) = false := by
  show ((x == c) && sep'.isPrefixOf t) = false
  have : (x == c) = false := by
    simp only [beq_eq_false_iff_ne, ne_eq]
    exact fun he => h he.symm
  rw [this, Bool.false_and]

theorem isPrefixOf_single_free {x : Char} {v : Str} (hv : ∀ c ∈ v, c ≠ x) :
    [x].isPrefixOf v = false := by
  cases v with
  | nil => rfl
  | cons c t =>
    exact isPrefixOf_cons_ne [] t (hv c (List.mem_cons_self c t))

theorem splitOnce_none_free (x : Char) (sep' : Str) :
    ∀ (s : Str), (∀ c ∈ s, c ≠ x) → splitOnce (x :: sep') s = none
  | [], _ => rfl
  | c :: t, hs => by
    unfold splitOnce
    rw [isPrefixOf_cons_ne sep' t (hs c (List.mem_cons_self c t))]
    simp only [Bool.false_eq_true, if_false]
    rw [splitOnce_none_free x sep' t
      (fun d hd => hs d (List.mem_cons_of_mem c hd))]

theorem splitOnce_append_none (x : Char) (sep' : Str) :
    ∀ (name : Str) (rest : Str), (∀ c ∈ name, c ≠ x) →
      splitOnce (x :: sep') rest = none →
      splitOnce (x :: sep') (name ++ rest) = none
  | [], rest, _, h => h
  | c :: name', rest, hname, h => by
    show splitOnce (x :: sep') (c :: (name' ++ rest)) = none
    unfold splitOnce
    rw [isPrefixOf_cons_ne sep' _ (hname c (List.mem_cons_self c name'))]
    simp only [Bool.false_eq_true, if_false]
    rw [splitOnce_append_none x sep' name' rest
      (fun d hd => hname d (List.mem_cons_of_mem c hd)) h]

theorem isPrefixOf_self_append : ∀ (l v : Str), l.isPrefixOf (l ++ v) = true
  | [], _ => by simp [List.isPrefixOf]
  | c :: t, v => by
    show ((c == c) && t.isPrefixOf (t ++ v)) = true
    rw [beq_self_eq_true, Bool.true_and]
    exact isPrefixOf_self_append t v

theorem splitOnce_boundary (x : Char) (sep' : Str) :
    ∀ (name v : Str), (∀ c ∈ name, c ≠ x) →
      splitOnce (x :: sep') (name ++ x :: (sep' ++ v)) = some (name, v)
  | [], v, _ => by
    show splitOnce (x :: sep') (x :: (sep' ++ v)) = some ([], v)
    unfold splitOnce
    have hpre : (x :: sep').isPrefixOf (x :: (sep' ++ v)) = true := by
      have h := isPrefixOf_self_append (x :: sep') v
      rw [List.cons_append] at h
      exact h
    rw [hpre]
    simp only [if_true]
    have hdrop : (x :: (sep' ++ v)).drop (x :: sep').length = v := by
      have h := List.drop_left (x :: sep') v
      rw [List.cons_append] at h
      exact h
    rw [hdrop]
  | c :: name', v, hname => by
    show splitOnce (x :: sep') (c :: (name' ++ x :: (sep' ++ v))) = _
    unfold splitOnce
    rw [isPrefixOf_cons_ne sep' _ (hname c (List.mem_cons_self c name'))]
    simp only [Bool.false_eq_true, if_false]
    rw [splitOnce_boundary x sep' name' v
      (fun d hd => hname d (List.mem_cons_of_mem c hd))]

theorem splitOnce_boundary_two (x y : Char) (name v : Str)
    (hname : ∀ c ∈ name, c ≠ x) :
    splitOnce [x, y] (name ++ x :: y :: v) = some (name, v) := by
  have h := splitOnce_boundary x [y] name v hname
  simpa using h

theorem splitOnce_boundary_one (x : Char) (name v : Str)
    (hname : ∀ c ∈ name, c ≠ x) :
    splitOnce [x] (name ++ x :: v) = some (name, v) := by
  have h := splitOnce_boundary x [] name v hname
  simpa using h

/-- `splitOnce [x, y] (x :: v) = none` when `y` does not start `v` and `x`
does not occur in `v`. -/
theorem splitOnce_two_head_no_follow {x y : Char} {v : Str}
    (hy : [y].isPrefixOf v = false) (hx : ∀ c ∈ v, c ≠ x) :
    splitOnce [x, y] (x :: v) = none := by
  unfold splitOnce
  have hpre : [x, y].isPrefixOf (x :: v) = false := by
    show ((x == x) && [y].isPrefixOf v) = false
    rw [beq_self_eq_true, Bool.true_and, hy]
  rw [hpre]
  simp only [Bool.false_eq_true, if_false]
  rw [splitOnce_none_free x [y] v hx]

theorem dictInsert_nil (k v : Str) : dictInsert [] k v = [(k, v)] := rfl

theorem parsePkgSpec_eqeq (acc : List (Str × Str)) (name v : Str)
    (hn : opFree name) :
    parsePkgSpec acc (name ++ '=' :: '=' :: v) = dictInsert acc name v := by
  unfold parsePkgSpec
  rw [splitOnce_boundary_two '=' '=' name v (fun c hc => (hn c hc).1)]

theorem parsePkgSpec_geq (acc : List (Str × Str)) (name v : Str)
    (hn : opFree name) (hv : opFree v) :
    parsePkgSpec acc (name ++ '>' :: '=' :: v) =
      dictInsert acc name ('>' :: '=' :: v) := by
  unfold parsePkgSpec
  have heq : splitOnce ['=', '='] (name ++ '>' :: '=' :: v) = none := by
    apply splitOnce_append_none '=' ['='] name _ (fun c hc => (hn c hc).1)
    unfold splitOnce
    rw [isPrefixOf_cons_ne ['='] _ (by decide)]
    simp only [Bool.false_eq_true, if_false]
    rw [splitOnce_two_head_no_follow
      (isPrefixOf_single_free (fun c hc => (hv c hc).1))
      (fun c hc => (hv c hc).1)]
  rw [heq,
    splitOnce_boundary_two '>' '=' name v (fun c hc => (hn c hc).2.1)]

theorem parsePkgSpec_leq (acc : List (Str × Str)) (name v : Str)
    (hn : opFree name) (hv : opFree v) :
    parsePkgSpec acc (name ++ '<' :: '=' :: v) =
      dictInsert acc name ('<' :: '=' :: v) := by
  unfold parsePkgSpec
  have heq : splitOnce ['=', '='] (name ++ '<' :: '=' :: v) = none := by
    apply splitOnce_append_none '=' ['='] name _ (fun c hc => (hn c hc).1)
    unfold splitOnce
    rw [isPrefixOf_cons_ne ['='] _ (by decide)]
    simp only [Bool.false_eq_true, if_false]
    rw [splitOnce_two_head_no_follow
      (isPrefixOf_single_free (fun c hc => (hv c hc).1))
      (fun c hc => (hv c hc).1)]
  have hge : splitOnce ['>', '='] (name ++ '<' :: '=' :: v) = none := by
    apply splitOnce_append_none '>' ['='] name _ (fun c hc => (hn c hc).2.1)
    unfold splitOnce
    rw [isPrefixOf_cons_ne ['='] _ (by decide)]
    simp only [Bool.false_eq_true, if_false]
    unfold splitOnce
    rw [isPrefixOf_cons_ne ['='] _ (by decide)]
    simp only [Bool.false_eq_true, if_false]
    rw [splitOnce_none_free '>' ['='] v (fun c hc => (hv c hc).2.1)]
  rw [heq, hge,
    splitOnce_boundary_two '<' '=' name v (fun c hc => (hn c hc).2.2)]

theorem parsePkgSpec_gt (acc : List (Str × Str)) (name v : Str)
    (hn : opFree name) (hv : opFree v) :
    parsePkgSpec acc (name ++ '>' :: v) =
      dictInsert acc name ('>' :: v) := by
  unfold parsePkgSpec
  have heq : splitOnce ['=', '='] (name ++ '>' :: v) = none := by
    apply splitOnce_append_none '=' ['='] name _ (fun c hc => (hn c hc).1)
    unfold splitOnce
    rw [isPrefixOf_cons_ne ['='] _ (by decide)]
    simp only [Bool.false_eq_true, if_false]
    rw [splitOnce_none_free '=' ['='] v (fun c hc => (hv c hc).1)]
  have hge : splitOnce ['>', '='] (name ++ '>' :: v) = none := by
    apply splitOnce_append_none '>' ['='] name _ (fun c hc => (hn c hc).2.1)
    exact splitOnce_two_head_no_follow
      (isPrefixOf_single_free (fun c hc => (hv c hc).1))
      (fun c hc => (hv c hc).2.1)
  have hle : splitOnce ['<', '='] (name ++ '>' :: v) = none := by
    apply splitOnce_append_none '<' ['='] name _ (fun c hc => (hn c hc).2.2)
    unfold splitOnce
    rw [isPrefixOf_cons_ne ['='] _ (by decide)]
    simp only [Bool.false_eq_true, if_false]
    rw [splitOnce_none_free '<' ['='] v (fun c hc => (hv c hc).2.2)]
  rw [heq, hge, hle,
    splitOnce_boundary_one '>' name v (fun c hc => (hn c hc).2.1)]

theorem parsePkgSpec_lt (acc : List (Str × Str)) (name v : Str)
    (hn : opFree name) (hv : opFree v) :
    parsePkgSpec acc (name ++ '<' :: v) =
      dictInsert acc name ('<' :: v) := by
  unfold parsePkgSpec
  have heq : splitOnce ['=', '='] (name ++ '<' :: v) = none := by
    apply splitOnce_append_none '=' ['='] name _ (fun c hc => (hn c hc).1)
    unfold splitOnce
    rw [isPrefixOf_cons_ne ['='] _ (by decide)]
    simp only [Bool.false_eq_true, if_false]
    rw [splitOnce_none_free '=' ['='] v (fun c hc => (hv c hc).1)]
  have hge : splitOnce ['>', '='] (name ++ '<' :: v) = none := by
    apply splitOnce_append_none '>' ['='] name _ (fun c hc => (hn c hc).2.1)
    unfold splitOnce
    rw [isPrefixOf_cons_ne ['='] _ (by decide)]
    simp only [Bool.false_eq_true, if_false]
    rw [splitOnce_none_free '>' ['='] v (fun c hc => (hv c hc).2.1)]
  have hle : splitOnce ['<', '='] (name ++ '<' :: v) = none := by
    apply splitOnce_append_none '<' ['='] name _ (fun c hc => (hn c hc).2.2)
    exact splitOnce_two_head_no_follow
      (isPrefixOf_single_free (fun c hc => (hv c hc).1))
      (fun c hc => (hv c hc).2.2)
  have hgt : splitOnce ['>'] (name ++ '<' :: v) = none := by
    apply splitOnce_append_none '>' [] name _ (fun c hc => (hn c hc).2.1)
    unfold splitOnce
    rw [isPrefixOf_cons_ne [] _ (by decide)]
    simp only [Bool.false_eq_true, if_false]
    rw [splitOnce_none_free '>' [] v (fun c hc => (hv c hc).2.1)]
  rw [heq, hge, hle, hgt,
    splitOnce_boundary_one '<' name v (fun c hc => (hn c hc).2.2)]

theorem parsePkgSpec_bare (acc : List (Str × Str)) (name : Str)
    (hn : opFree name) :
    parsePkgSpec acc name = dictInsert acc name ("unknown".data) := by
  unfold parsePkgSpec
  rw [splitOnce_none_free '=' ['='] name (fun c hc => (hn c hc).1),
    splitOnce_none_free '>' ['='] name (fun c hc => (hn c hc).2.1),
    splitOnce_none_free '<' ['='] name (fun c hc => (hn c hc).2.2),
    splitOnce_none_free '>' [] name (fun c hc => (hn c hc).2.1),
    splitOnce_none_free '<' [] name (fun c hc => (hn c hc).2.2)]

/-- C7: `_parse_packages` returns a dict unchanged; normalises the five
list specifier forms into name → (operator-prefixed) version, with a bare
name mapping to `"unknown"`; and maps `None`, `[]` and `{}` to `{}`.
Names and versions range over specifier-operator-free strings. -/
theorem parse_packages_spec :
    ∀ (d : List (Str × Str)) (name v : Str),
      parse_packages (.dict d) = d ∧
      parse_packages .null = [] ∧
      parse_packages (.list []) = [] ∧
      (opFree name → opFree v →
        parse_packages (.list [name ++ '=' :: '=' :: v]) = [(name, v)] ∧
        parse_packages (.list [name ++ '>' :: '=' :: v]) =
          [(name, '>' :: '=' :: v)] ∧
        parse_packages (.list [name ++ '<' :: '=' :: v]) =
          [(name, '<' :: '=' :: v)] ∧
        parse_packages (.list [name ++ '>' :: v]) = [(name, '>' :: v)] ∧
        parse_packages (.list [name ++ '<' :: v]) = [(name, '<' :: v)] ∧
        parse_packages (.list [name]) = [(name, "unknown".data)]) := by
  intro d name v
  refine ⟨?_, rfl, rfl, ?_⟩
  · cases d with
    | nil => rfl
    | cons p t => rfl
  · intro hn hv
    have hsingle : ∀ (s : Str), parse_packages (.list [s]) =
        parsePkgSpec [] s := by
      intro s; rfl
    refine ⟨?_, ?_, ?_, ?_, ?_, ?_⟩
    · rw [hsingle, parsePkgSpec_eqeq [] name v hn, dictInsert_nil]
    · rw [hsingle, parsePkgSpec_geq [] name v hn hv, dictInsert_nil]
    · rw [hsingle, parsePkgSpec_leq [] name v hn hv, dictInsert_nil]
    · rw [hsingle, parsePkgSpec_gt [] name v hn hv, dictInsert_nil]
    · rw [hsingle, parsePkgSpec_lt [] name v hn hv, dictInsert_nil]
    · rw [hsingle, parsePkgSpec_bare [] name hn, dictInsert_nil]

/-- C7 witness: the spec's own round-trip examples. -/
theorem parse_packages_spec_witness :
    parse_packages (.dict [("numpy".data, "1.19.0".data)]) =
      [("numpy".data, "1.19.0".data)] ∧
    parse_packages (.list ["numpy==2.2.6".data]) =
      [("numpy".data, "2.2.6".data)] ∧
    parse_packages (.list ["numpy>=1.19.0".data]) =
      [("numpy".data, ">=1.19.0".data)] ∧
    parse_packages .null = [] ∧
    parse_packages (.list []) = [] := by
  have h := parse_packages_spec [("numpy".data, "1.19.0".data)]
    "numpy".data "2.2.6".data
  have h2 := (parse_packages_spec [] "numpy".data "1.19.0".data).2.2.2
    (by unfold opFree; decide) (by unfold opFree; decide)
  refine ⟨h.1, ?_, ?_, h.2.1, h.2.2.1⟩
  · have := (h.2.2.2 (by unfold opFree; decide) (by unfold opFree; decide)).1
    exact (by decide :
      ("numpy==2.2.6".data =
        "numpy".data ++ '=' :: '=' :: "2.2.6".data)) ▸ this
  · have := h2.2.1
    exact (by decide :
      ("numpy>=1.19.0".data =
        "numpy".data ++ '>' :: '=' :: "1.19.0".data)) ▸ this

/-! ### Lemmas about the deduplication pass -/

theorem contains_iff (l : List Str) (a : Str) :
    l.contains a = true ↔ a ∈ l := List.elem_iff

/-- The survivors' keys are pairwise distinct and disjoint from the seen
set. -/
theorem dedupFirst_nodup :
    ∀ (bs : List Beacon) (seen : List Str),
      ((dedupFirst seen bs).map errorKey).Nodup ∧
      ∀ b ∈ dedupFirst seen bs, errorKey b ∉ seen
  | [], seen => ⟨List.nodup_nil, fun b hb => absurd hb (List.not_mem_nil b)⟩
  | b :: rest, seen => by
    unfold dedupFirst
    by_cases hc : seen.contains (errorKey b) = true
    · rw [if_pos hc]
      exact dedupFirst_nodup rest seen
    · rw [if_neg hc]
      obtain ⟨ih1, ih2⟩ := dedupFirst_nodup rest (errorKey b :: seen)
      refine ⟨?_, ?_⟩
      · rw [List.map_cons, List.nodup_cons]
        refine ⟨?_, ih1⟩
        intro hmem
        rw [List.mem_map] at hmem
        obtain ⟨b', hb', hkey⟩ := hmem
        exact ih2 b' hb' (hkey ▸ List.mem_cons_self _ _)
      · intro b' hb'
        rcases List.mem_cons.mp hb' with rfl | h
        · intro hmem
          exact hc ((contains_iff seen (errorKey b')).mpr hmem)
        · intro hmem
          exact ih2 b' h (List.mem_cons_of_mem _ hmem)

/-- Every input beacon's key is covered: it was already seen, or some
survivor carries it. -/
theorem dedupFirst_covers :
    ∀ (bs : List Beacon) (seen : List Str), ∀ b ∈ bs,
      errorKey b ∈ seen ∨
      ∃ b', b' ∈ dedupFirst seen bs ∧ errorKey b' = errorKey b
  | [], _ => fun b hb => absurd hb (List.not_mem_nil b)
  | b :: rest, seen => by
    intro x hx
    unfold dedupFirst
    by_cases hc : seen.contains (errorKey b) = true
    · rw [if_pos hc]
      rcases List.mem_cons.mp hx with rfl | h
      · exact Or.inl ((contains_iff seen (errorKey x)).mp hc)
      · exact dedupFirst_covers rest seen x h
    · rw [if_neg hc]
      rcases List.mem_cons.mp hx with rfl | h
      · exact Or.inr ⟨x, List.mem_cons_self _ _, rfl⟩
      · rcases dedupFirst_covers rest (errorKey b :: seen) x h with hs | ⟨b', hb', hk⟩
        · rcases List.mem_cons.mp hs with he | hs'
          · exact Or.inr ⟨b, List.mem_cons_self _ _, he.symm⟩
          · exact Or.inl hs'
        · exact Or.inr ⟨b', List.mem_cons_of_mem _ hb', hk⟩

/-- Every survivor is the first input element bearing its key (elements
before it either have a different key or were already seen). -/
theorem dedupFirst_first :
    ∀ (bs : List Beacon) (seen : List Str), ∀ b ∈ dedupFirst seen bs,
      ∃ l₁ l₂, bs = l₁ ++ b :: l₂ ∧
        ∀ x ∈ l₁, errorKey x ∈ seen ∨ errorKey x ≠ errorKey b
  | [], _ => fun b hb => absurd hb (List.not_mem_nil b)
  | b :: rest, seen => by
    intro x hx
    rw [show dedupFirst seen (b :: rest) =
        (if seen.contains (errorKey b) = true then dedupFirst seen rest
         else b :: dedupFirst (errorKey b :: seen) rest) from rfl] at hx
    by_cases hc : seen.contains (errorKey b) = true
    · rw [if_pos hc] at hx
      obtain ⟨l₁, l₂, he, hkeys⟩ := dedupFirst_first rest seen x hx
      refine ⟨b :: l₁, l₂, by rw [he]; rfl, ?_⟩
      intro y hy
      rcases List.mem_cons.mp hy with rfl | h
      · exact Or.inl ((contains_iff seen (errorKey y)).mp hc)
      · exact hkeys y h
    · rw [if_neg hc] at hx
      rcases List.mem_cons.mp hx with rfl | h
      · exact ⟨[], rest, rfl, fun y hy => absurd hy (List.not_mem_nil y)⟩
      · obtain ⟨l₁, l₂, he, hkeys⟩ :=
          dedupFirst_first rest (errorKey b :: seen) x h
        refine ⟨b :: l₁, l₂, by rw [he]; rfl, ?_⟩
        intro y hy
        have hxnew := (dedupFirst_nodup rest (errorKey b :: seen)).2 x h
        rcases List.mem_cons.mp hy with rfl | h'
        · right
          intro hk
          exact hxnew (hk ▸ List.mem_cons_self _ _)
        · rcases hkeys y h' with hs | hne
          · rcases List.mem_cons.mp hs with he' | hs'
            · right
              intro hk
              exact hxnew (by rw [← hk, ← he']; exact List.mem_cons_self _ _)
            · exact Or.inl hs'
          · exact Or.inr hne

/-- The stripped text a surviving beacon contributes to `error_texts`
(`none` when blank). -/
def textOf (b : Beacon) : Option Str :=
  if (pyStrip (sigOrUnknown b.error_sig)).isEmpty then none
  else some (pyStrip (sigOrUnknown b.error_sig))

/-- The working-set record a surviving beacon contributes to
`beacon_env_data` (`none` when blank or without a unique matching
snapshot). -/
def recOf (envDB : List EnvSnapshot) (b : Beacon) : Option WorkRec :=
  if (pyStrip (sigOrUnknown b.error_sig)).isEmpty then none
  else
    match envDB.filter (fun e => e.env_hash == b.env_hash) with
    | [e] => some ⟨b, pyStrip (sigOrUnknown b.error_sig), e⟩
    | _ => none

/-- A successful ingestion pass equals the seen-set filter followed by the
per-survivor text and record extraction. -/
theorem ingestLoop_characterization (envDB : List EnvSnapshot) :
    ∀ (bs : List Beacon) (seen : List Str) (acc out : IngestOut),
      ingestLoop envDB bs seen acc = some out →
      out.error_texts =
        acc.error_texts ++ (dedupFirst seen bs).filterMap textOf ∧
      out.beacon_env_data =
        acc.beacon_env_data ++ (dedupFirst seen bs).filterMap (recOf envDB)
  | [], seen, acc, out => by
    intro h
    unfold ingestLoop at h
    cases h
    unfold dedupFirst
    simp
  | b :: rest, seen, acc, out => by
    intro h
    unfold ingestLoop at h
    unfold dedupFirst
    by_cases hc : seen.contains (errorKey b) = true
    · rw [if_pos hc] at h ⊢
      have ih := ingestLoop_characterization envDB rest seen
        { acc with duplicates_filtered := acc.duplicates_filtered + 1 } out h
      exact ih
    · rw [if_neg hc] at h ⊢
      rw [List.filterMap_cons, List.filterMap_cons]
      by_cases hblank : (pyStrip (sigOrUnknown b.error_sig)).isEmpty = true
      · rw [if_pos hblank] at h
        have htb : textOf b = none := by unfold textOf; rw [if_pos hblank]
        have hrb : recOf envDB b = none := by
          unfold recOf; rw [if_pos hblank]
        rw [htb, hrb]
        exact ingestLoop_characterization envDB rest _ _ out h
      · rw [if_neg hblank] at h
        have htb : textOf b = some (pyStrip (sigOrUnknown b.error_sig)) := by
          unfold textOf; rw [if_neg hblank]
        rw [htb]
        cases hfl : envDB.filter (fun e => e.env_hash == b.env_hash) with
        | nil =>
          have hg : getEnv envDB b.env_hash = some none := by
            unfold getEnv; rw [hfl]
          rw [hg] at h
          have hrb : recOf envDB b = none := by
            unfold recOf; rw [if_neg hblank, hfl]
          rw [hrb]
          obtain ⟨h1, h2⟩ := ingestLoop_characterization envDB rest _ _ out h
          refine ⟨?_, h2⟩
          rw [h1]
          simp
        | cons e tl =>
          cases tl with
          | nil =>
            have hg : getEnv envDB b.env_hash = some (some e) := by
              unfold getEnv; rw [hfl]
            rw [hg] at h
            have hrb : recOf envDB b =
                some ⟨b, pyStrip (sigOrUnknown b.error_sig), e⟩ := by
              unfold recOf; rw [if_neg hblank, hfl]
            rw [hrb]
            obtain ⟨h1, h2⟩ := ingestLoop_characterization envDB rest _ _ out h
            constructor
            · rw [h1]; simp
            · rw [h2]; simp
          | cons e2 tl2 =>
            have hg : getEnv envDB b.env_hash = none := by
              unfold getEnv; rw [hfl]
            rw [hg] at h
            cases h

/-- What a produced working-set record looks like: its beacon is the
survivor itself and its env is the unique matching snapshot. -/
theorem recOf_beacon {envDB : List EnvSnapshot} {b : Beacon} {r : WorkRec}
    (h : recOf envDB b = some r) :
    r.beacon = b ∧ r.env ∈ envDB ∧ r.env.env_hash = b.env_hash ∧
    r.text = pyStrip (sigOrUnknown b.error_sig) := by
  unfold recOf at h
  by_cases hblank : (pyStrip (sigOrUnknown b.error_sig)).isEmpty = true
  · rw [if_pos hblank] at h
    cases h
  · rw [if_neg hblank] at h
    cases hfl : envDB.filter (fun e => e.env_hash == b.env_hash) with
    | nil => rw [hfl] at h; cases h
    | cons e tl =>
      cases tl with
      | nil =>
        rw [hfl] at h
        cases h
        have he : e ∈ envDB.filter (fun e => e.env_hash == b.env_hash) := by
          rw [hfl]; exact List.mem_cons_self _ _
        rw [List.mem_filter] at he
        exact ⟨rfl, he.1, by simpa using he.2, rfl⟩
      | cons e2 tl2 => rw [hfl] at h; cases h

/-- The keys of the produced working-set records form a sublist of the
survivors' keys. -/
theorem recOf_keys_sublist (envDB : List EnvSnapshot) :
    ∀ (l : List Beacon),
      ((l.filterMap (recOf envDB)).map (fun r => errorKey r.beacon)).Sublist
        (l.map errorKey)
  | [] => List.Sublist.slnil
  | b :: t => by
    rw [List.filterMap_cons, List.map_cons]
    cases hr : recOf envDB b with
    | none => exact List.Sublist.cons _ (recOf_keys_sublist envDB t)
    | some r =>
      rw [List.map_cons]
      have hb := (recOf_beacon hr).1
      rw [hb]
      exact List.Sublist.cons₂ _ (recOf_keys_sublist envDB t)

/-- C10: the deduplication key is the concatenation
`(error_sig or '') + ':' + env_hash`; a missing signature and an empty
signature with the same env_hash yield the same key; at most one survivor
carries any key, every input key is represented, each survivor is the
first input beacon with its key; a signature containing `':'` can collide
with a different (signature, env_hash) pair; and the working-set records
of a successful ingestion carry pairwise distinct keys. -/
theorem dedup_key_concatenation_semantics :
    ∀ (bs : List Beacon),
      (∀ b : Beacon, errorKey b = sigOrEmpty b.error_sig ++ ':' :: b.env_hash) ∧
      (∀ b₁ b₂ : Beacon, (b₁.error_sig = none ∨ b₁.error_sig = some []) →
        (b₂.error_sig = none ∨ b₂.error_sig = some []) →
        b₁.env_hash = b₂.env_hash → errorKey b₁ = errorKey b₂) ∧
      ((dedupFirst [] bs).map errorKey).Nodup ∧
      (∀ b ∈ bs, ∃ b', b' ∈ dedupFirst [] bs ∧ errorKey b' = errorKey b) ∧
      (∀ b ∈ dedupFirst [] bs, ∃ l₁ l₂, bs = l₁ ++ b :: l₂ ∧
        ∀ x ∈ l₁, errorKey x ≠ errorKey b) ∧
      (errorKey ⟨"error".data, "c".data, "s".data, some "a:b".data, none, 0⟩ =
        errorKey ⟨"error".data, "b:c".data, "s".data, some "a".data, none, 0⟩) ∧
      (∀ (envDB : List EnvSnapshot) (out : IngestOut),
        ingestLoop envDB bs [] ⟨[], [], 0⟩ = some out →
        (out.beacon_env_data.map (fun r => errorKey r.beacon)).Nodup) := by
  intro bs
  refine ⟨fun b => rfl, ?_, (dedupFirst_nodup bs []).1, ?_, ?_, by decide, ?_⟩
  · intro b₁ b₂ h1 h2 henv
    have e1 : sigOrEmpty b₁.error_sig = [] := by
      rcases h1 with h | h <;> rw [h] <;> rfl
    have e2 : sigOrEmpty b₂.error_sig = [] := by
      rcases h2 with h | h <;> rw [h] <;> rfl
    unfold errorKey
    rw [e1, e2, henv]
  · intro b hb
    rcases dedupFirst_covers bs [] b hb with hs | h
    · exact absurd hs (List.not_mem_nil _)
    · exact h
  · intro b hb
    obtain ⟨l₁, l₂, he, hkeys⟩ := dedupFirst_first bs [] b hb
    refine ⟨l₁, l₂, he, ?_⟩
    intro x hx
    rcases hkeys x hx with hs | hne
    · exact absurd hs (List.not_mem_nil _)
    · exact hne
  · intro envDB out hrun
    have hchar := (ingestLoop_characterization envDB bs [] ⟨[], [], 0⟩ out
      hrun).2
    have : out.beacon_env_data =
        (dedupFirst [] bs).filterMap (recOf envDB) := by
      rw [hchar]; rfl
    rw [this]
    exact ((recOf_keys_sublist envDB (dedupFirst [] bs)).nodup
      (dedupFirst_nodup bs []).1)

/-- C10 witness: a `None`-signature beacon and an empty-signature beacon
with the same env_hash collapse to one survivor — only the first is kept. -/
theorem dedup_key_concatenation_witness :
    dedupFirst []
      [⟨"error".data, "e1".data, "s".data, none, none, 0⟩,
       ⟨"error".data, "e1".data, "s".data, some [], none, 1⟩] =
      [⟨"error".data, "e1".data, "s".data, none, none, 0⟩] ∧
    ∃ b', b' ∈ dedupFirst []
        [⟨"error".data, "e1".data, "s".data, none, none, 0⟩,
         ⟨"error".data, "e1".data, "s".data, some [], none, 1⟩] ∧
      errorKey b' =
        errorKey ⟨"error".data, "e1".data, "s".data, some [], none, 1⟩ := by
  constructor
  · decide
  · exact (dedup_key_concatenation_semantics
      [⟨"error".data, "e1".data, "s".data, none, none, 0⟩,
       ⟨"error".data, "e1".data, "s".data, some [], none, 1⟩]).2.2.2.1
      ⟨"error".data, "e1".data, "s".data, some [], none, 1⟩
      (by decide)

/-- A surviving error beacon whose env_hash has no snapshot. -/
def bUnmatched : Beacon :=
  ⟨"error".data, "hx".data, "s".data, some "boom".data, none, 0⟩

/-- C2 counterexample: a beacon that survives deduplication but has no
matching `EnvironmentSnapshot` still contributes its text to
`error_texts` — the set submitted to the encoder and to DBSCAN — because
the source appends the text *before* the snapshot lookup; only
`beacon_env_data` drops the record. -/
theorem unmatched_beacon_text_still_encoded :
    ingestLoop [] [bUnmatched] [] ⟨[], [], 0⟩ =
      some ⟨["boom".data], [], 0⟩ ∧
    ([] : List EnvSnapshot).filter
      (fun e => e.env_hash == bUnmatched.env_hash) = [] ∧
    bUnmatched ∈ dedupFirst [] [bUnmatched] ∧
    "boom".data ∈ (⟨["boom".data], [], 0⟩ : IngestOut).error_texts := by
  refine ⟨by decide, rfl, by decide, by decide⟩

/-- Aligned index extraction: when the label list and the working set have
equal lengths, the member extraction succeeds and returns exactly the
records at the positions labelled `cid`. -/
theorem clusterDataAux_aligned (cid : Int) :
    ∀ (ls : List Int) (bed : List WorkRec) (i : Nat),
      i + ls.length = bed.length →
      clusterDataAux bed cid i ls =
        some ((((bed.drop i).zip ls).filter
          (fun p => p.2 == cid)).map Prod.fst)
  | [], bed, i, h => by
    unfold clusterDataAux
    rw [List.zip_nil_right]
    rfl
  | l :: ls, bed, i, h => by
    rw [List.length_cons] at h
    have hi : i < bed.length := by omega
    unfold clusterDataAux
    rw [List.drop_eq_getElem_cons hi, List.zip_cons_cons, List.filter_cons]
    by_cases hl : (l == cid) = true
    · rw [if_pos hl, List.getElem?_eq_getElem hi,
        clusterDataAux_aligned cid ls bed (i + 1) (by omega)]
      have hp : ((bed[i], l).2 == cid) = true := hl
      rw [if_pos hp, List.map_cons]
    · rw [if_neg hl, clusterDataAux_aligned cid ls bed (i + 1) (by omega)]
      have hp : ¬((bed[i], l).2 == cid) = true := hl
      rw [if_neg hp]

/-- C2 (amended): a surviving beacon with no matching snapshot is excluded
from the working set — it contributes no record and hence no cluster
membership or configuration pattern — but its normalized text *is* still
included in the encoded text set used for clustering; every working-set
record carries a matching snapshot; and when the label list aligns with
the working set (in particular when every encoded text has a matching
snapshot), each stored cluster's member list is exactly the working-set
records at the positions assigned that cluster label. -/
theorem unmatched_env_dropped_from_working_set :
    ∀ (envDB : List EnvSnapshot) (bs : List Beacon) (out : IngestOut),
      ingestLoop envDB bs [] ⟨[], [], 0⟩ = some out →
      (∀ r ∈ out.beacon_env_data,
        r.env ∈ envDB ∧ r.env.env_hash = r.beacon.env_hash) ∧
      (∀ b ∈ dedupFirst [] bs,
        envDB.filter (fun e => e.env_hash == b.env_hash) = [] →
        (pyStrip (sigOrUnknown b.error_sig)).isEmpty = false →
        pyStrip (sigOrUnknown b.error_sig) ∈ out.error_texts ∧
        ∀ r ∈ out.beacon_env_data, r.beacon ≠ b) ∧
      (∀ (labels : List Int) (cid : Int),
        labels.length = out.beacon_env_data.length →
        clusterData out.beacon_env_data labels cid =
          some (((out.beacon_env_data.zip labels).filter
            (fun p => p.2 == cid)).map Prod.fst)) := by
  intro envDB bs out hrun
  obtain ⟨htexts, hbed⟩ :=
    ingestLoop_characterization envDB bs [] ⟨[], [], 0⟩ out hrun
  have htexts' : out.error_texts = (dedupFirst [] bs).filterMap textOf := by
    rw [htexts]; rfl
  have hbed' : out.beacon_env_data =
      (dedupFirst [] bs).filterMap (recOf envDB) := by
    rw [hbed]; rfl
  refine ⟨?_, ?_, ?_⟩
  · intro r hr
    rw [hbed', List.mem_filterMap] at hr
    obtain ⟨b, _, hrb⟩ := hr
    obtain ⟨hbeacon, henvmem, hhash, _⟩ := recOf_beacon hrb
    exact ⟨henvmem, by rw [hhash, hbeacon]⟩
  · intro b hb hfl hblank
    have hrb : recOf envDB b = none := by
      unfold recOf
      rw [if_neg (by rw [hblank]; exact Bool.false_ne_true), hfl]
    constructor
    · rw [htexts', List.mem_filterMap]
      refine ⟨b, hb, ?_⟩
      unfold textOf
      rw [if_neg (by rw [hblank]; exact Bool.false_ne_true)]
    · intro r hr hrbk
      rw [hbed', List.mem_filterMap] at hr
      obtain ⟨b', hb', hrb'⟩ := hr
      have hbb : b' = b := by rw [← hrbk]; exact ((recOf_beacon hrb').1).symm
      rw [hbb] at hrb'
      rw [hrb] at hrb'
      cases hrb'
  · intro labels cid hlen
    unfold clusterData
    rw [clusterDataAux_aligned cid labels out.beacon_env_data 0
      (by omega), List.drop_zero]

/-- C2 witness: with one matched and one unmatched beacon, the unmatched
survivor's text is encoded but no working-set record carries it, and the
aligned member extraction returns the matched record for label 0. -/
theorem unmatched_env_dropped_witness :
    pyStrip (sigOrUnknown bUnmatched.error_sig) ∈
      (⟨["boom".data], [], 0⟩ : IngestOut).error_texts ∧
    (∀ r ∈ (⟨["boom".data], [], 0⟩ : IngestOut).beacon_env_data,
      r.beacon ≠ bUnmatched) := by
  have h := (unmatched_env_dropped_from_working_set [] [bUnmatched]
    ⟨["boom".data], [], 0⟩ (by decide)).2.1 bUnmatched (by decide) rfl
    (by decide)
  exact ⟨h.1, h.2⟩

/-! ### Privacy exclusions (C9) -/

/-- An environment variable that contributes a hit: value at most 200
characters and name not denylisted. -/
def envVarOk (p : Str × Str) : Bool :=
  !(decide (p.2.length > 200)) && !(denylist.contains (pyLower p.1))

/-- Drop the excluded environment variables from a snapshot. -/
def scrubVars (e : EnvSnapshot) : EnvSnapshot :=
  { e with env_vars := e.env_vars.map (List.filter envVarOk) }

/-- Drop the excluded environment variables from a working-set record. -/
def scrubRec (r : WorkRec) : WorkRec := { r with env := scrubVars r.env }

theorem envVarStep_skip {p : Str × Str} (h : envVarOk p = false)
    (acc : ConfigStats) : envVarStep acc p = acc := by
  unfold envVarOk at h
  unfold envVarStep
  rcases Bool.and_eq_false_iff.mp h with h1 | h2
  · rw [Bool.not_eq_false', decide_eq_true_eq] at h1
    rw [if_pos h1]
  · rw [Bool.not_eq_false'] at h2
    by_cases hlen : p.2.length > 200
    · rw [if_pos hlen]
    · rw [if_neg hlen, if_pos h2]

theorem foldl_envVarStep_filter :
    ∀ (vars : List (Str × Str)) (acc : ConfigStats),
      vars.foldl envVarStep acc =
        (vars.filter envVarOk).foldl envVarStep acc
  | [], _ => rfl
  | p :: t, acc => by
    rw [List.foldl_cons, List.filter_cons]
    by_cases hok : envVarOk p = true
    · rw [if_pos hok, List.foldl_cons]
      exact foldl_envVarStep_filter t (envVarStep acc p)
    · have hf : envVarOk p = false := by
        revert hok; cases envVarOk p <;> simp
      rw [if_neg (by rw [hf]; exact Bool.false_ne_true),
        envVarStep_skip hf acc]
      exact foldl_envVarStep_filter t acc

/-- Excluded environment variables contribute nothing to a snapshot's
hits: over-long values give no hit and denylisted names are dropped
entirely. -/
theorem envHits_scrub (stats : ConfigStats) (e : EnvSnapshot) :
    envHits stats e = envHits stats (scrubVars e) := by
  unfold envHits scrubVars
  cases hv : e.env_vars with
  | none => rfl
  | some vars =>
    simp only [Option.map_some]
    exact foldl_envVarStep_filter vars _

/-- No key of an accumulator names a denylisted environment variable. -/
def KeysOk (stats : ConfigStats) : Prop :=
  ∀ kv ∈ stats, ∀ n, kv.1 = envVarKey n →
    denylist.contains (pyLower n) = false

theorem bump_keysOk {s : ConfigStats} {k v : Str} (hs : KeysOk s)
    (hk : ∀ n, k = envVarKey n → denylist.contains (pyLower n) = false) :
    KeysOk (bump s k v) := by
  intro kv hkv n hn
  unfold bump at hkv
  by_cases hc : s.any (fun p => p.1 == k)
  · rw [if_pos hc] at hkv
    rw [List.mem_map] at hkv
    obtain ⟨p, hp, hpe⟩ := hkv
    by_cases hpk : p.1 == k
    · rw [if_pos hpk] at hpe
      subst hpe
      have hpk' : p.1 = k := by simpa using hpk
      have hn' : p.1 = envVarKey n := hn
      rw [hpk'] at hn'
      exact hk n hn'
    · rw [if_neg hpk] at hpe
      subst hpe
      exact hs p hp n hn
  · rw [if_neg hc] at hkv
    rcases List.mem_append.mp hkv with h | h
    · exact hs kv h n hn
    · have he2 := List.mem_singleton.mp h
      subst he2
      exact hk n hn

theorem envHits_keysOk {s : ConfigStats} (e : EnvSnapshot) (hs : KeysOk s) :
    KeysOk (envHits s e) := by
  unfold envHits
  have hfixed : ∀ (c : Char), c ≠ 'e' → ∀ (k : Str), k.head? = some c →
      ∀ n, k = envVarKey n → denylist.contains (pyLower n) = false := by
    intro c hc k hk n hn
    have h2 : k.head? = (envVarKey n).head? := congrArg List.head? hn
    rw [hk] at h2
    have h3 : (envVarKey n).head? = some 'e' := rfl
    rw [h3] at h2
    exact absurd (Option.some.inj h2) hc
  have h4 : KeysOk ((parse_packages e.packages).foldl
      (fun acc p => bump acc (pkgKey p.1) p.2)
      (bump (bump (bump s "python_ver".data e.python_ver)
        "machine_arch".data e.machine_arch) "os_info".data e.os_info)) := by
    refine foldl_preserve KeysOk _ (fun b a hb => ?_) _ _
      (bump_keysOk (bump_keysOk (bump_keysOk hs
          (hfixed 'p' (by decide) ("python_ver".data) rfl))
          (hfixed 'm' (by decide) ("machine_arch".data) rfl))
          (hfixed 'o' (by decide) ("os_info".data) rfl))
    exact bump_keysOk hb (hfixed 'p' (by decide) (pkgKey a.1) rfl)
  cases e.env_vars with
  | none => exact h4
  | some vars =>
    refine foldl_preserve KeysOk _ (fun b a hb => ?_) _ _ h4
    unfold envVarStep
    split
    · exact hb
    · split
      · exact hb
      · rename_i hden
        refine bump_keysOk hb ?_
        intro n hn
        have := List.append_cancel_left
          (hn : "env_vars.".data ++ a.1 = "env_vars.".data ++ n)
        subst this
        revert hden
        cases denylist.contains (pyLower a.1) <;> simp

theorem globalAccum_keysOk (envDB : List EnvSnapshot) :
    KeysOk (envDB.foldl envHits []) :=
  foldl_preserve KeysOk envHits (fun _ a hb => envHits_keysOk a hb) envDB []
    (fun kv hkv => absurd hkv (List.not_mem_nil kv))

theorem clusterConfigs_keysOk (cd : List WorkRec) :
    KeysOk (clusterConfigs cd) :=
  foldl_preserve KeysOk _ (fun _ a hb => envHits_keysOk a.env hb) cd []
    (fun kv hkv => absurd hkv (List.not_mem_nil kv))

/-- Two variables that differ at most in the value of a denylisted name. -/
def varAgree (p q : Str × Str) : Prop :=
  p.1 = q.1 ∧ (denylist.contains (pyLower p.1) = false → p.2 = q.2)

/-- Lift `varAgree` to the optional variable mapping. -/
def varsAgree : Option (List (Str × Str)) → Option (List (Str × Str)) → Prop
  | none, none => True
  | some l, some l' => List.Forall₂ varAgree l l'
  | _, _ => False

/-- Two snapshots equal except for the values of denylisted variables. -/
def EnvAgree (e e' : EnvSnapshot) : Prop :=
  e.env_hash = e'.env_hash ∧ e.machine_arch = e'.machine_arch ∧
  e.python_ver = e'.python_ver ∧ e.os_info = e'.os_info ∧
  e.packages = e'.packages ∧ varsAgree e.env_vars e'.env_vars

/-- Two working-set records whose snapshots agree. -/
def RecAgree (r r' : WorkRec) : Prop := EnvAgree r.env r'.env

theorem envVarStep_agree {p q : Str × Str} (h : varAgree p q)
    (acc : ConfigStats) : envVarStep acc p = envVarStep acc q := by
  obtain ⟨h1, h2⟩ := h
  by_cases hden : denylist.contains (pyLower p.1) = true
  · have e1 : envVarStep acc p = acc := by
      unfold envVarStep
      by_cases hlen : p.2.length > 200
      · rw [if_pos hlen]
      · rw [if_neg hlen, if_pos hden]
    have e2 : envVarStep acc q = acc := by
      unfold envVarStep
      by_cases hlen : q.2.length > 200
      · rw [if_pos hlen]
      · rw [if_neg hlen, if_pos (by rw [← h1]; exact hden)]
    rw [e1, e2]
  · have hden' : denylist.contains (pyLower p.1) = false := by
      revert hden; cases denylist.contains (pyLower p.1) <;> simp
    have hv := h2 hden'
    unfold envVarStep
    rw [h1, hv]

theorem foldl_envVarStep_agree {l l' : List (Str × Str)}
    (h : List.Forall₂ varAgree l l') :
    ∀ acc, l.foldl envVarStep acc = l'.foldl envVarStep acc := by
  induction h with
  | nil => intro acc; rfl
  | cons hpq _ ih =>
    intro acc
    rw [List.foldl_cons, List.foldl_cons, envVarStep_agree hpq acc]
    exact ih _

/-- Changing only the values of denylisted variables does not change a
snapshot's contribution. -/
theorem envHits_agree {e e' : EnvSnapshot} (h : EnvAgree e e')
    (stats : ConfigStats) : envHits stats e = envHits stats e' := by
  obtain ⟨_, harch, hpy, hos, hpkg, hvars⟩ := h
  unfold envHits
  rw [hpy, harch, hos, hpkg]
  revert hvars
  cases e.env_vars with
  | none =>
    cases e'.env_vars with
    | none => intro _; rfl
    | some l' => intro hvars; exact absurd hvars id
  | some l =>
    cases e'.env_vars with
    | none => intro hvars; exact absurd hvars id
    | some l' =>
      intro hvars
      exact foldl_envVarStep_agree hvars _

theorem foldl_envHits_agree {db db' : List EnvSnapshot}
    (h : List.Forall₂ EnvAgree db db') :
    ∀ stats, db.foldl envHits stats = db'.foldl envHits stats := by
  induction h with
  | nil => intro stats; rfl
  | cons hee _ ih =>
    intro stats
    rw [List.foldl_cons, List.foldl_cons, envHits_agree hee stats]
    exact ih _

theorem clusterConfigs_agree {cd cd' : List WorkRec}
    (h : List.Forall₂ RecAgree cd cd') :
    clusterConfigs cd = clusterConfigs cd' := by
  unfold clusterConfigs
  have haux : ∀ {a b : List WorkRec}, List.Forall₂ RecAgree a b →
      ∀ stats, a.foldl (fun acc d => envHits acc d.env) stats =
        b.foldl (fun acc d => envHits acc d.env) stats := by
    intro a b hab
    induction hab with
    | nil => intro stats; rfl
    | cons hrr _ ih =>
      intro stats
      rw [List.foldl_cons, List.foldl_cons, envHits_agree hrr stats]
      exact ih _
  exact haux h []

theorem foldl_envHits_scrub :
    ∀ (l : List EnvSnapshot) (s : ConfigStats),
      l.foldl envHits s = (l.map scrubVars).foldl envHits s
  | [], _ => rfl
  | e :: t, s => by
    rw [List.map_cons, List.foldl_cons, List.foldl_cons, ← envHits_scrub]
    exact foldl_envHits_scrub t _

theorem foldl_recHits_scrub :
    ∀ (l : List WorkRec) (s : ConfigStats),
      l.foldl (fun acc d => envHits acc d.env) s =
        (l.map scrubRec).foldl (fun acc d => envHits acc d.env) s
  | [], _ => rfl
  | r :: t, s => by
    rw [List.map_cons, List.foldl_cons, List.foldl_cons]
    show t.foldl _ (envHits s r.env) =
      (t.map scrubRec).foldl _ (envHits s (scrubVars r.env))
    rw [← envHits_scrub]
    exact foldl_recHits_scrub t _

/-- C9: environment variables with values over 200 characters contribute
no hit and denylisted names contribute nothing at all, in the global
baseline and in per-cluster scoring alike: both computations are invariant
under dropping the excluded variables; no baseline entry and no persisted
pattern carries a denylisted `env_vars.*` key; and changing only the
values of denylisted variables changes no output. -/
theorem privacy_exclusions :
    ∀ (envDB : List EnvSnapshot) (cd : List WorkRec) (gs : GlobalRates)
      (ch : Str),
      (_calculate_global_config_stats envDB =
        _calculate_global_config_stats (envDB.map scrubVars)) ∧
      (_analyze_cluster_config_patterns cd gs ch =
        _analyze_cluster_config_patterns (cd.map scrubRec) gs ch) ∧
      (∀ kv ∈ _calculate_global_config_stats envDB, ∀ n,
        kv.1 = envVarKey n → denylist.contains (pyLower n) = false) ∧
      (∀ p ∈ _analyze_cluster_config_patterns cd gs ch, ∀ n,
        p.config_key = envVarKey n →
        denylist.contains (pyLower n) = false) ∧
      (∀ envDB', List.Forall₂ EnvAgree envDB envDB' →
        _calculate_global_config_stats envDB =
          _calculate_global_config_stats envDB') ∧
      (∀ cd', List.Forall₂ RecAgree cd cd' →
        _analyze_cluster_config_patterns cd gs ch =
          _analyze_cluster_config_patterns cd' gs ch) := by
  intro envDB cd gs ch
  refine ⟨?_, ?_, ?_, ?_, ?_, ?_⟩
  · unfold _calculate_global_config_stats
    simp only [List.length_map]
    rw [← foldl_envHits_scrub envDB []]
  · unfold _analyze_cluster_config_patterns
    simp only [List.length_map]
    rw [← foldl_recHits_scrub cd []]
  · intro kv hkv n hn
    unfold _calculate_global_config_stats at hkv
    by_cases h0 : envDB.length = 0
    · rw [if_pos h0] at hkv
      cases hkv
    · rw [if_neg h0] at hkv
      rw [List.mem_map] at hkv
      obtain ⟨p, hp, hpe⟩ := hkv
      subst hpe
      exact globalAccum_keysOk envDB p hp n hn
  · intro p hp n hn
    unfold _analyze_cluster_config_patterns at hp
    rw [List.mem_flatMap] at hp
    obtain ⟨kv, hkv, hkvmem⟩ := hp
    rw [List.mem_filterMap] at hkvmem
    obtain ⟨vc, _, hvc⟩ := hkvmem
    by_cases hcond : ((vc.2 : ℚ) / (cd.length : ℚ)) /
        lookupRate gs kv.1 vc.1 > 3/2 ∧ (vc.2 : ℚ) / (cd.length : ℚ) > 13/20
    · rw [if_pos hcond] at hvc
      cases hvc
      exact clusterConfigs_keysOk cd kv hkv n hn
    · rw [if_neg hcond] at hvc
      cases hvc
  · intro envDB' hagree
    unfold _calculate_global_config_stats
    rw [List.Forall₂.length_eq hagree, foldl_envHits_agree hagree []]
  · intro cd' hagree
    unfold _analyze_cluster_config_patterns
    rw [List.Forall₂.length_eq hagree]
    have hcfg := clusterConfigs_agree hagree
    unfold clusterConfigs at hcfg
    rw [hcfg]

/-- A snapshot carrying a denylisted variable. -/
def envWithSecret (v : Str) : EnvSnapshot :=
  ⟨"h1".data, "x86".data, .null, "3.11".data, "linux".data,
   some [("KEY".data, v)]⟩

/-- C9 witness: two snapshot tables that differ only in the value of the
denylisted variable `KEY` produce the same baseline, and that baseline has
no `env_vars.KEY` entry. -/
theorem privacy_exclusions_witness :
    _calculate_global_config_stats [envWithSecret "v1".data] =
      _calculate_global_config_stats [envWithSecret "v2".data] ∧
    (∀ kv ∈ _calculate_global_config_stats [envWithSecret "v1".data], ∀ n,
      kv.1 = envVarKey n → denylist.contains (pyLower n) = false) := by
  have h := privacy_exclusions [envWithSecret "v1".data] [] [] []
  refine ⟨?_, h.2.2.1⟩
  refine h.2.2.2.2.1 [envWithSecret "v2".data] ?_
  refine List.Forall₂.cons ?_ List.Forall₂.nil
  refine ⟨rfl, rfl, rfl, rfl, rfl, ?_⟩
  show List.Forall₂ varAgree [("KEY".data, "v1".data)]
    [("KEY".data, "v2".data)]
  refine List.Forall₂.cons ⟨rfl, fun hc => absurd hc (by decide)⟩
    List.Forall₂.nil

/-! ### Lemmas about the best-match scan (C5) -/

/-- The loop body of the best-match scan. -/
def selStep (threshold : ℚ) (best : Option ServiceCluster × ℚ)
    (c : ServiceCluster × ℚ) : Option ServiceCluster × ℚ :=
  if c.2 > best.2 ∧ c.2 ≥ threshold then (some c.1, c.2) else best

theorem selectBest_eq_foldl (threshold : ℚ)
    (cs : List (ServiceCluster × ℚ)) :
    selectBest threshold cs = cs.foldl (selStep threshold) (none, 0) := rfl

/-- Once the scan holds a candidate it never returns to `none`. -/
theorem selStep_stays_some (threshold : ℚ) :
    ∀ (cs : List (ServiceCluster × ℚ)) (b : ServiceCluster) (s : ℚ),
      (cs.foldl (selStep threshold) (some b, s)).1 ≠ none
  | [], b, s => fun h => by cases h
  | c :: t, b, s => by
    rw [List.foldl_cons]
    unfold selStep
    by_cases hf : c.2 > (some b, s).2 ∧ c.2 ≥ threshold
    · rw [if_pos hf]
      exact selStep_stays_some threshold t c.1 c.2
    · rw [if_neg hf]
      exact selStep_stays_some threshold t b s

/-- If the scan never fires, the accumulator is unchanged. -/
theorem selStep_no_fire (threshold : ℚ) :
    ∀ (cs : List (ServiceCluster × ℚ)) (acc : Option ServiceCluster × ℚ),
      (∀ c ∈ cs, ¬(c.2 ≥ threshold)) →
      cs.foldl (selStep threshold) acc = acc
  | [], _, _ => rfl
  | c :: t, acc, h => by
    rw [List.foldl_cons]
    have hstep : selStep threshold acc c = acc := by
      unfold selStep
      rw [if_neg (fun hf => h c (List.mem_cons_self c t) hf.2)]
    rw [hstep]
    exact selStep_no_fire threshold t acc
      (fun x hx => h x (List.mem_cons_of_mem c hx))

/-- Main invariant of the scan: a selected candidate is one of the inputs,
clears the threshold, and dominates every input at or above the
threshold; the best similarity never decreases. -/
theorem selStep_spec (threshold : ℚ) :
    ∀ (cs : List (ServiceCluster × ℚ)) (b₀ : Option ServiceCluster)
      (s₀ : ℚ) (b : ServiceCluster) (s : ℚ),
      cs.foldl (selStep threshold) (b₀, s₀) = (some b, s) →
      ((some b, s) = (b₀, s₀) ∨ ((b, s) ∈ cs ∧ s ≥ threshold)) ∧
      (∀ c ∈ cs, c.2 ≥ threshold → c.2 ≤ s) ∧ s₀ ≤ s
  | [], b₀, s₀, b, s => by
    intro h
    rw [List.foldl_nil] at h
    refine ⟨Or.inl h.symm, fun c hc => absurd hc (List.not_mem_nil c), ?_⟩
    cases h
    exact le_refl _
  | c :: t, b₀, s₀, b, s => by
    intro h
    rw [List.foldl_cons] at h
    by_cases hf : c.2 > (b₀, s₀).2 ∧ c.2 ≥ threshold
    · rw [show selStep threshold (b₀, s₀) c = (some c.1, c.2) from
        by unfold selStep; rw [if_pos hf]] at h
      obtain ⟨hcase, hdom, hmono⟩ := selStep_spec threshold t _ _ b s h
      rcases hcase with heq | ⟨hmem, hthr⟩
      · have hb : b = c.1 := by cases heq; rfl
        have hs : s = c.2 := by cases heq; rfl
        refine ⟨Or.inr ⟨?_, by rw [hs]; exact hf.2⟩, ?_, ?_⟩
        · rw [hb, hs]
          exact List.mem_cons_self _ _
        · intro x hx hxthr
          rcases List.mem_cons.mp hx with rfl | hxt
          · rw [hs]
          · exact hdom x hxt hxthr
        · rw [hs]
          exact le_of_lt hf.1
      · refine ⟨Or.inr ⟨List.mem_cons_of_mem c hmem, hthr⟩, ?_, ?_⟩
        · intro x hx hxthr
          rcases List.mem_cons.mp hx with rfl | hxt
          · exact hmono
          · exact hdom x hxt hxthr
        · exact le_trans (le_of_lt hf.1) hmono
    · rw [show selStep threshold (b₀, s₀) c = (b₀, s₀) from
        by unfold selStep; rw [if_neg hf]] at h
      obtain ⟨hcase, hdom, hmono⟩ := selStep_spec threshold t _ _ b s h
      have hcs : c.2 ≥ threshold → c.2 ≤ s := by
        intro hxthr
        have hle : c.2 ≤ s₀ := by
          by_contra hgt
          exact hf ⟨lt_of_not_le hgt, hxthr⟩
        exact le_trans hle hmono
      rcases hcase with heq | ⟨hmem, hthr⟩
      · refine ⟨Or.inl heq, ?_, hmono⟩
        intro x hx hxthr
        rcases List.mem_cons.mp hx with rfl | hxt
        · exact hcs hxthr
        · exact hdom x hxt hxthr
      · refine ⟨Or.inr ⟨List.mem_cons_of_mem c hmem, hthr⟩, ?_, hmono⟩
        intro x hx hxthr
        rcases List.mem_cons.mp hx with rfl | hxt
        · exact hcs hxthr
        · exact hdom x hxt hxthr

/-- C5: with a positive threshold (the default is 0.9) the suggestion
lookup returns `none` — never an error — when the store is empty, when no
cluster's cosine similarity reaches the threshold, and when the matched
cluster has no patterns; a successful lookup returns the cluster with the
highest similarity among those at or above the threshold, with up to
`max_suggestions` of that cluster's patterns ordered by significance
descending. -/
theorem find_config_suggestion_spec :
    ∀ (modelOk encodeOk : Bool) (error_sig error_trace : Option Str)
      (threshold : ℚ) (max_suggestions : Nat)
      (clusters : List (ServiceCluster × ℚ)),
      0 < threshold →
      (clusters = [] →
        find_config_suggestion modelOk encodeOk error_sig error_trace
          threshold max_suggestions clusters = none) ∧
      ((∀ c ∈ clusters, c.2 < threshold) →
        find_config_suggestion modelOk encodeOk error_sig error_trace
          threshold max_suggestions clusters = none) ∧
      (∀ best s, selectBest threshold clusters = (some best, s) →
        best.config_patterns = [] →
        find_config_suggestion modelOk encodeOk error_sig error_trace
          threshold max_suggestions clusters = none) ∧
      (∀ r, find_config_suggestion modelOk encodeOk error_sig error_trace
          threshold max_suggestions clusters = some r →
        ∃ best s, selectBest threshold clusters = (some best, s) ∧
          (best, s) ∈ clusters ∧ r.similarity = s ∧ s ≥ threshold ∧
          (∀ c ∈ clusters, c.2 ≤ s) ∧
          r.suggestions = ((sortBySignificanceDesc
            best.config_patterns).take max_suggestions).map mkSuggestion ∧
          r.suggestions ≠ [] ∧
          r.suggestions.length ≤ max_suggestions ∧
          r.suggestions.Pairwise (fun a b =>
            b.significance_score ≤ a.significance_score) ∧
          (∀ sug ∈ r.suggestions, ∃ pat ∈ best.config_patterns,
            sug = mkSuggestion pat) ∧
          r.total_similar_errors = best.error_count ∧
          r.error_signature = best.error_signature) := by
  intro modelOk encodeOk error_sig error_trace threshold max_suggestions
    clusters ht
  refine ⟨?_, ?_, ?_, ?_⟩
  · intro hempty
    subst hempty
    unfold find_config_suggestion
    dsimp only
    split
    · rfl
    · split
      · rfl
      · split
        · rfl
        · split
          · rfl
          · rename_i hne
            exact absurd rfl hne
  · intro hlt
    unfold find_config_suggestion
    dsimp only
    split
    · rfl
    · split
      · rfl
      · split
        · rfl
        · split
          · rfl
          · split
            · rfl
            · have hsel : selectBest threshold clusters = (none, 0) := by
                rw [selectBest_eq_foldl]
                exact selStep_no_fire threshold clusters (none, 0)
                  (fun c hc hthr => absurd (hlt c hc) (not_lt.mpr hthr))
              rw [hsel]
  · intro best s hsel hpat
    unfold find_config_suggestion
    dsimp only
    split
    · rfl
    · split
      · rfl
      · split
        · rfl
        · split
          · rfl
          · split
            · rfl
            · rw [hsel]
              dsimp only
              rw [hpat]
              simp [sortBySignificanceDesc, List.insertionSort]
  · intro r hr
    unfold find_config_suggestion at hr
    dsimp only at hr
    split at hr
    · exact Option.noConfusion hr
    · split at hr
      · exact Option.noConfusion hr
      · split at hr
        · exact Option.noConfusion hr
        · split at hr
          · exact Option.noConfusion hr
          · split at hr
            · exact Option.noConfusion hr
            · split at hr
              · exact Option.noConfusion hr
              · rename_i best s hsel
                split at hr
                · exact Option.noConfusion hr
                · rename_i hnonempty
                  cases hr
                  have hspec := selStep_spec threshold clusters none 0
                    best s (by rw [← selectBest_eq_foldl]; exact hsel)
                  obtain ⟨hcase, hdom, _⟩ := hspec
                  rcases hcase with heq | ⟨hmem, hthr⟩
                  · exact absurd (congrArg Prod.fst heq)
                      (by simp)
                  · refine ⟨best, s, hsel, hmem, rfl, hthr, ?_, rfl, ?_,
                      ?_, ?_, ?_, rfl, rfl⟩
                    · intro c hc
                      by_cases hcthr : c.2 ≥ threshold
                      · exact hdom c hc hcthr
                      · exact le_trans (le_of_lt (lt_of_not_ge hcthr)) hthr
                    · intro hnil
                      rw [List.map_eq_nil_iff] at hnil
                      rw [hnil] at hnonempty
                      exact hnonempty rfl
                    · rw [List.length_map, List.length_take]
                      exact min_le_left _ _
                    · have hsorted : ((sortBySignificanceDesc
                          best.config_patterns).take
                          max_suggestions).Pairwise sigGE :=
                        List.Pairwise.sublist (List.take_sublist _ _)
                          (List.sorted_insertionSort sigGE
                            best.config_patterns)
                      exact List.pairwise_map.mpr hsorted
                    · intro sug hsug
                      rw [List.mem_map] at hsug
                      obtain ⟨pat, hpat, hpe⟩ := hsug
                      refine ⟨pat, ?_, hpe.symm⟩
                      have h1 : pat ∈ sortBySignificanceDesc
                          best.config_patterns :=
                        (List.take_sublist _ _).mem hpat
                      exact (List.perm_insertionSort sigGE
                        best.config_patterns).mem_iff.mp h1

/-- C5 witness: an empty store and a store whose only cluster sits below
the 0.9 threshold both yield "no match". -/
theorem find_config_suggestion_witness :
    find_config_suggestion true true (some "boom".data) none (9/10) 3 []
      = none ∧
    find_config_suggestion true true (some "boom".data) none (9/10) 3
      [(⟨5, 0, 1, "sig".data, []⟩, 1/2)] = none := by
  constructor
  · exact (find_config_suggestion_spec true true (some "boom".data) none
      (9/10) 3 [] (by norm_num)).1 rfl
  · refine (find_config_suggestion_spec true true (some "boom".data) none
      (9/10) 3 [(⟨5, 0, 1, "sig".data, []⟩, 1/2)] (by norm_num)).2.1 ?_
    intro c hc
    have := List.mem_singleton.mp hc
    subst this
    norm_num

/-! ### The fault behaviour of the analysis run (C1) -/

/-- Concrete encoder for the fault scenario (embeddings as integers). -/
def encodeW : Str → Int := fun _ => 0

/-- Concrete clustering for the fault scenario: every text in one
cluster, one label per embedding. -/
def dbscanW : List Int → List Int := fun l => l.map (fun _ => 0)

/-- Concrete signature hash for the fault scenario. -/
def hashW : Str → Str := fun s => s

/-- Two clusterable error beacons from two environments. -/
def beaconsW : List Beacon :=
  [⟨"error".data, "e1".data, "s".data, some "boom".data, none, 0⟩,
   ⟨"error".data, "e2".data, "s".data, some "boom".data, none, 1⟩]

/-- The two matching snapshots. -/
def envDBW : List EnvSnapshot :=
  [⟨"e1".data, "x86".data, .null, "3.11".data, "linux".data, none⟩,
   ⟨"e2".data, "x86".data, .null, "3.11".data, "linux".data, none⟩]

/-- The cluster row the run would persist for this input. -/
def newClusterW : ErrorCluster Int :=
  ⟨"boom".data, "boom".data, 2, 0, 1, 0⟩

/-- A previously stored cluster and pattern (the prior Cluster Store). -/
def oldClusterW : ErrorCluster Int := ⟨"old".data, "old".data, 3, 0, 0, 7⟩

/-- The prior store contents. -/
def storeW : Store Int :=
  ⟨[oldClusterW], [⟨"old".data, "python_ver".data, "3.9".data, 1, 1/2, 2⟩],
   []⟩

/-- C1 evidence: an unexpected fault inside the `try` block (here injected
before the first create, or after the first create) leaves the Cluster
Store partially corrupted. The prior cluster and pattern rows were already
deleted before the `try` block, the new set — which contains
`newClusterW` — is absent or partial, and no `ErrorAnalysis` row is
written. This contradicts "the prior cluster/pattern set remains intact or
the new set is complete". -/
theorem run_fault_corrupts_cluster_store :
    runAnalysis encodeW dbscanW hashW (some 0) beaconsW envDBW storeW =
      ⟨[], [], []⟩ ∧
    (runAnalysis encodeW dbscanW hashW (some 1) beaconsW envDBW
      storeW).clusters = [newClusterW] ∧
    (runAnalysis encodeW dbscanW hashW (some 1) beaconsW envDBW
      storeW).patterns = [] ∧
    (runAnalysis encodeW dbscanW hashW (some 1) beaconsW envDBW
      storeW).analyses = [] ∧
    storeW.clusters = [oldClusterW] ∧ oldClusterW ≠ newClusterW := by
  refine ⟨by decide, by decide, by decide, by decide, rfl, by decide⟩

end CEA
